import Mathlib

/-!
Verification of the document-normalization and publication pipeline of the
PM-doc-generator server (src/server.js, the `/fully-automate` flow).

The JavaScript code is shallowly embedded: JS values are modelled by the
inductive `JVal` (arrays may carry named properties, as in JS), string
trimming by `jsTrim` (dropping whitespace from both ends), property reads
and writes by `getProp`/`setProp` (writes on primitives are silent no-ops,
matching sloppy-mode semantics; places where the source would throw a
TypeError are modelled by explicit error branches in the functions that
contain them).
-/

namespace PMDoc

/-- Whitespace characters recognized by JavaScript's `String.prototype.trim`. -/
def isJsWs (c : Char) : Bool :=
  c = ' ' || c = '\t' || c = '\n' || c = '\r' ||
  c = Char.ofNat 11 || c = Char.ofNat 12 || c = Char.ofNat 160 || c = Char.ofNat 65279

/-- Drop leading and trailing whitespace from a character list. -/
def trimChars (l : List Char) : List Char :=
  ((l.dropWhile isJsWs).reverse.dropWhile isJsWs).reverse

/-- Model of JavaScript `String.prototype.trim`. -/
def jsTrim (s : String) : String := ⟨trimChars s.data⟩

theorem dropWhile_eq_self_of_prefix (p : Char → Bool) {l m : List Char}
    (hpre : l <+: m) (hm : m.dropWhile p = m) : l.dropWhile p = l := by
  obtain ⟨r, hr⟩ := hpre
  subst hr
  rw [List.dropWhile_eq_self_iff] at hm ⊢
  intro hl
  have hml : 0 < (l ++ r).length := by simp; omega
  have := hm hml
  have hget : (l ++ r).get ⟨0, hml⟩ = l.get ⟨0, hl⟩ := by
    simp [List.get_eq_getElem, List.getElem_append_left hl]
  rwa [hget] at this

theorem trimChars_idem (l : List Char) : trimChars (trimChars l) = trimChars l := by
  unfold trimChars
  set m := l.dropWhile isJsWs with hm
  have hmm : m.dropWhile isJsWs = m := by
    rw [hm]; exact List.dropWhile_idempotent isJsWs l
  set r := m.reverse.dropWhile isJsWs with hr
  have hsuffix : r <:+ m.reverse := by
    rw [hr]; exact List.dropWhile_suffix isJsWs
  have hpre : r.reverse <+: m := by
    have := List.reverse_prefix.mpr hsuffix
    simpa using this
  have h1 : r.reverse.dropWhile isJsWs = r.reverse :=
    dropWhile_eq_self_of_prefix isJsWs hpre hmm
  have h2 : r.dropWhile isJsWs = r := by
    rw [hr]; exact List.dropWhile_idempotent isJsWs m.reverse
  rw [h1]
  simp only [List.reverse_reverse]
  rw [h2]

theorem jsTrim_idem (s : String) : jsTrim (jsTrim s) = jsTrim s := by
  unfold jsTrim
  exact congrArg String.mk (trimChars_idem s.data)

/-- JavaScript values, as they appear in this server: strings, numbers
(integral only — nothing in the modelled code computes fractions), booleans,
`null`, `undefined`, arrays (which, being objects, may also carry named
properties) and plain objects (association lists of named properties). -/
inductive JVal : Type where
  | str (s : String)
  | num (n : Int)
  | bool (b : Bool)
  | null
  | undefined
  | arr (elems : List JVal) (props : List (String × JVal))
  | obj (props : List (String × JVal))
deriving Repr

/-- First-match property lookup in an association list (`undefined` if absent). -/
def lookupProp : List (String × JVal) → String → JVal
  | [], _ => .undefined
  | (k, v) :: rest, key => if k = key then v else lookupProp rest key

/-- Replace the first binding of `key` (or append one). -/
def setPropList : List (String × JVal) → String → JVal → List (String × JVal)
  | [], key, v => [(key, v)]
  | (k, w) :: rest, key, v =>
      if k = key then (k, v) :: rest else (k, w) :: setPropList rest key v

/-- Whether the association list binds `key`. -/
def hasKey : List (String × JVal) → String → Bool
  | [], _ => false
  | (k, _) :: rest, key => k = key || hasKey rest key

/-- JavaScript truthiness. -/
def truthy : JVal → Bool
  | .str s => s ≠ ""
  | .num n => n ≠ 0
  | .bool b => b
  | .null => false
  | .undefined => false
  | .arr _ _ => true
  | .obj _ => true

/-- `typeof v === "object"` (true for arrays, plain objects and `null`). -/
def isObjectType : JVal → Bool
  | .arr _ _ => true
  | .obj _ => true
  | .null => true
  | _ => false

/-- Object-like values: those on which property writes take effect. -/
def objLike : JVal → Bool
  | .arr _ _ => true
  | .obj _ => true
  | _ => false

/-- Property read. Yields `undefined` on primitives (as `?.` chains and reads
on wrapper objects do in JS); the modelled code never performs a plain read
on `null`/`undefined` except where an explicit error branch models the throw. -/
def getProp : JVal → String → JVal
  | .obj ps, k => lookupProp ps k
  | .arr _ ps, k => lookupProp ps k
  | _, _ => .undefined

/-- Property write. Silent no-op on primitives (sloppy-mode JS). -/
def setProp : JVal → String → JVal → JVal
  | .obj ps, k, v => .obj (setPropList ps k v)
  | .arr es ps, k, v => .arr es (setPropList ps k v)
  | x, _, _ => x

/-- `Array.isArray`. -/
def isArray : JVal → Bool
  | .arr _ _ => true
  | _ => false

/-- The elements of an array value (empty for non-arrays). -/
def asElems : JVal → List JVal
  | .arr es _ => es
  | _ => []

/-- JavaScript `a || b`. -/
def jsOr (a b : JVal) : JVal := if truthy a then a else b

/-- `a || b` on strings (`""` is the only falsy string). -/
def jsOrStr (a b : String) : String := if a = "" then b else a

theorem lookupProp_setPropList_self (l : List (String × JVal)) (k : String) (v : JVal) :
    lookupProp (setPropList l k v) k = v := by
  induction l with
  | nil => simp [setPropList, lookupProp]
  | cons hd tl ih =>
    obtain ⟨k₀, v₀⟩ := hd
    by_cases h : k₀ = k
    · simp [setPropList, h, lookupProp]
    · simp [setPropList, h, lookupProp, ih]

theorem lookupProp_setPropList_ne (l : List (String × JVal)) {k k' : String} (v : JVal)
    (h : k' ≠ k) : lookupProp (setPropList l k v) k' = lookupProp l k' := by
  induction l with
  | nil => simp [setPropList, lookupProp, Ne.symm h]
  | cons hd tl ih =>
    obtain ⟨k₀, v₀⟩ := hd
    by_cases h0 : k₀ = k
    · subst h0
      simp [setPropList, lookupProp, Ne.symm h]
    · simp [setPropList, h0, lookupProp]
      by_cases h1 : k₀ = k'
      · simp [h1]
      · simp [h1, ih]

theorem hasKey_setPropList_self (l : List (String × JVal)) (k : String) (v : JVal) :
    hasKey (setPropList l k v) k = true := by
  induction l with
  | nil => simp [setPropList, hasKey]
  | cons hd tl ih =>
    obtain ⟨k₀, v₀⟩ := hd
    by_cases h : k₀ = k
    · simp [setPropList, h, hasKey]
    · simp [setPropList, h, hasKey, ih]

theorem hasKey_setPropList_mono (l : List (String × JVal)) {k' : String} (k : String) (v : JVal)
    (h : hasKey l k' = true) : hasKey (setPropList l k v) k' = true := by
  induction l with
  | nil => simp [hasKey] at h
  | cons hd tl ih =>
    obtain ⟨k₀, v₀⟩ := hd
    by_cases h0 : k₀ = k
    · subst h0
      simp [hasKey] at h
      rcases h with h | h
      · simp [setPropList, hasKey, h]
      · simp [setPropList, hasKey, h]
    · simp [setPropList, h0, hasKey]
      simp [hasKey] at h
      rcases h with h | h
      · exact Or.inl h
      · exact Or.inr (ih h)

theorem setPropList_eq_self {l : List (String × JVal)} {k : String} {v : JVal}
    (hmem : hasKey l k = true) (hval : lookupProp l k = v) : setPropList l k v = l := by
  induction l with
  | nil => simp [hasKey] at hmem
  | cons hd tl ih =>
    obtain ⟨k₀, v₀⟩ := hd
    by_cases h0 : k₀ = k
    · subst h0
      simp [lookupProp] at hval
      simp [setPropList, hval]
    · simp [hasKey, h0] at hmem
      simp [lookupProp, h0] at hval
      simp [setPropList, h0, ih hmem hval]

/-- Key presence at the `JVal` level. -/
def hasKeyJ : JVal → String → Bool
  | .obj ps, k => hasKey ps k
  | .arr _ ps, k => hasKey ps k
  | _, _ => false

theorem getProp_setProp_self {x : JVal} (k : String) (v : JVal) (h : objLike x = true) :
    getProp (setProp x k v) k = v := by
  cases x <;> simp_all [objLike, setProp, getProp, lookupProp_setPropList_self]

theorem getProp_setProp_ne (x : JVal) {k k' : String} (v : JVal) (h : k' ≠ k) :
    getProp (setProp x k v) k' = getProp x k' := by
  cases x <;> simp_all [setProp, getProp, lookupProp_setPropList_ne _ _ h]

theorem objLike_setProp (x : JVal) (k : String) (v : JVal) :
    objLike (setProp x k v) = objLike x := by
  cases x <;> rfl

theorem truthy_setProp (x : JVal) (k : String) (v : JVal) :
    truthy (setProp x k v) = truthy x := by
  cases x <;> rfl

theorem hasKeyJ_setProp_self {x : JVal} (k : String) (v : JVal) (h : objLike x = true) :
    hasKeyJ (setProp x k v) k = true := by
  cases x <;> simp_all [objLike, setProp, hasKeyJ, hasKey_setPropList_self]

theorem hasKeyJ_setProp_mono {x : JVal} {k' : String} (k : String) (v : JVal)
    (h : hasKeyJ x k' = true) : hasKeyJ (setProp x k v) k' = true := by
  cases x <;> simp_all [setProp, hasKeyJ, hasKey_setPropList_mono]

theorem setProp_eq_self {x : JVal} {k : String} {v : JVal}
    (hmem : hasKeyJ x k = true) (hval : getProp x k = v) : setProp x k v = x := by
  cases x <;> simp_all [hasKeyJ, getProp, setProp, setPropList_eq_self]

mutual

/-- Model of JavaScript string coercion `String(v)` / template interpolation. -/
def jsToString : JVal → String
  | .str s => s
  | .num n => toString n
  | .bool b => if b then "true" else "false"
  | .null => "null"
  | .undefined => "undefined"
  | .obj _ => "[object Object]"
  | .arr es _ => jsJoinElems es ","

/-- A single joined element: like `jsToString` but `null`/`undefined` give `""`. -/
def jsElemStr : JVal → String
  | .null => ""
  | .undefined => ""
  | .str s => s
  | .num n => toString n
  | .bool b => if b then "true" else "false"
  | .obj _ => "[object Object]"
  | .arr es _ => jsJoinElems es ","

/-- `Array.prototype.join`: elements stringified, `null`/`undefined` as `""`. -/
def jsJoinElems : List JVal → String → String
  | [], _ => ""
  | [x], _ => jsElemStr x
  | x :: y :: rest, sep => jsElemStr x ++ sep ++ jsJoinElems (y :: rest) sep

end

/-! ### The document normalizer (`ensureDocHasContent`, src/server.js) -/

/-- `safeString(s)`: trim if a string, otherwise `""`. -/
def safeString : JVal → String
  | .str s => jsTrim s
  | _ => ""

/-- Body of the injected "Notes" placeholder section. -/
def notesBody : String :=
  "This document was generated automatically. If any sections are missing, add more detailed requirements and re-run."

/-- First 1200 characters, modelling `extracted.slice(0, 1200)`. -/
def take1200 (s : String) : String := ⟨s.data.take 1200⟩

/-- A fresh `{h, body}` section object. -/
def mkSection (h body : String) : JVal := .obj [("h", .str h), ("body", .str body)]

/-- `{h: safeString(s?.h), body: safeString(s?.body)}` — section coercion. -/
def coerceSection (s : JVal) : JVal :=
  mkSection (safeString (getProp s "h")) (safeString (getProp s "body"))

/-- `safeString(x?.h) || safeString(x?.body)` viewed as a truthiness test. -/
def sectionHasText (x : JVal) : Bool :=
  safeString (getProp x "h") != "" || safeString (getProp x "body") != ""

/-- The two placeholder sections injected for empty documents. -/
def placeholderSections (extracted : String) : List JVal :=
  [mkSection "Overview" (if extracted != "" then take1200 extracted else "(No requirements provided)"),
   mkSection "Notes" notesBody]

/-- `ensureDocHasContent(doc, fallbackTitle, extracted)` (src/server.js). -/
def ensureDocHasContent (doc : JVal) (fallbackTitle : String) (extracted : String) : JVal :=
  let out := if truthy doc && isObjectType doc then doc else .obj []
  let title := jsOrStr (safeString (getProp out "title")) fallbackTitle
  let out1 := setProp out "title" (.str title)
  let sections := if isArray (getProp out1 "sections") then asElems (getProp out1 "sections") else []
  let hasAnyText := sections.any sectionHasText || jsTrim title != ""
  let newSections :=
    if !hasAnyText || sections.length == 0 then placeholderSections extracted
    else sections.map coerceSection
  setProp out1 "sections" (.arr newSections [])

/-- The sections array the normalizer reads from its input. -/
def docSections (doc : JVal) : List JVal :=
  if isArray (getProp doc "sections") then asElems (getProp doc "sections") else []

/-- The document title after the fallback substitution. -/
def resolvedTitle (doc : JVal) (fallbackTitle : String) : String :=
  jsOrStr (safeString (getProp doc "title")) fallbackTitle

/-- The sections of the normalizer's output, described from the spec's angle:
the two placeholders exactly when the input's sections array is empty, or no
section carries text and the resolved title is empty too; otherwise the input
sections, coerced one-for-one. -/
def normalizedSections (doc : JVal) (fallbackTitle extracted : String) : List JVal :=
  if (docSections doc).isEmpty
      || ((docSections doc).all (fun s => !sectionHasText s)
          && (jsTrim (resolvedTitle doc fallbackTitle) == "")) then
    placeholderSections extracted
  else
    (docSections doc).map coerceSection

theorem truthy_and_isObjectType (doc : JVal) :
    (truthy doc && isObjectType doc) = objLike doc := by
  cases doc <;> simp [truthy, isObjectType, objLike]

theorem getProp_ite_base (doc : JVal) (k : String) :
    getProp (if objLike doc then doc else .obj []) k = getProp doc k := by
  cases doc <;> simp [objLike, getProp, lookupProp]

theorem objLike_ite_base (doc : JVal) :
    objLike (if objLike doc then doc else .obj []) = true := by
  cases doc <;> simp [objLike]

theorem all_not_eq_not_any (l : List JVal) (p : JVal → Bool) :
    (l.all fun s => !p s) = !(l.any p) := by
  induction l with
  | nil => rfl
  | cons a t ih => simp [List.all_cons, List.any_cons, ih]

/-- Unfolding `ensureDocHasContent` into its title/sections shape. -/
theorem ensureDocHasContent_shape (doc : JVal) (ft ext : String) :
    ensureDocHasContent doc ft ext =
      setProp (setProp (if objLike doc then doc else .obj []) "title"
          (.str (resolvedTitle doc ft))) "sections"
        (.arr (normalizedSections doc ft ext) []) := by
  simp only [ensureDocHasContent]
  rw [truthy_and_isObjectType]
  have hsections_ne : ("sections" : String) ≠ "title" := by decide
  have hbase_title := getProp_ite_base doc "title"
  have hbase_sections := getProp_ite_base doc "sections"
  rw [hbase_title]
  rw [getProp_setProp_ne _ _ hsections_ne, hbase_sections]
  congr 1
  congr 1
  unfold normalizedSections docSections resolvedTitle
  set secs := if isArray (getProp doc "sections") then asElems (getProp doc "sections") else []
  set t := jsOrStr (safeString (getProp doc "title")) ft
  have hcond : (!(secs.any sectionHasText || jsTrim t != "") || secs.length == 0)
      = (secs.isEmpty || (secs.all (fun s => !sectionHasText s) && (jsTrim t == ""))) := by
    have h1 : (!(jsTrim t != "")) = (jsTrim t == "") := by
      simp [bne]
    have h2 : (secs.length == 0) = secs.isEmpty := by
      cases secs <;> rfl
    rw [all_not_eq_not_any, Bool.not_or, h1, h2]
    exact Bool.or_comm _ _
  rw [hcond]

theorem getProp_ensureDocHasContent_title (doc : JVal) (ft ext : String) :
    getProp (ensureDocHasContent doc ft ext) "title" = .str (resolvedTitle doc ft) := by
  rw [ensureDocHasContent_shape]
  have h1 : ("title" : String) ≠ "sections" := by decide
  rw [getProp_setProp_ne _ _ h1]
  exact getProp_setProp_self _ _ (objLike_ite_base doc)

theorem getProp_ensureDocHasContent_sections (doc : JVal) (ft ext : String) :
    getProp (ensureDocHasContent doc ft ext) "sections"
      = .arr (normalizedSections doc ft ext) [] := by
  rw [ensureDocHasContent_shape]
  refine getProp_setProp_self _ _ ?_
  rw [objLike_setProp]
  exact objLike_ite_base doc

theorem normalizedSections_ne_nil (doc : JVal) (ft ext : String) :
    normalizedSections doc ft ext ≠ [] := by
  unfold normalizedSections
  by_cases h : (docSections doc).isEmpty
      || ((docSections doc).all (fun s => !sectionHasText s)
          && (jsTrim (resolvedTitle doc ft) == ""))
  · simp only [h, if_true]
    simp [placeholderSections]
  · simp only [h, if_false]
    have hne : docSections doc ≠ [] := by
      intro hnil
      rw [hnil] at h
      simp [List.isEmpty] at h
    simp [hne]

theorem jsTrim_safeString (v : JVal) : jsTrim (safeString v) = safeString v := by
  cases v
  case str s => exact jsTrim_idem s
  all_goals rfl

theorem getProp_mkSection_h (h b : String) : getProp (mkSection h b) "h" = .str h := by
  simp [mkSection, getProp, lookupProp]

theorem getProp_mkSection_body (h b : String) : getProp (mkSection h b) "body" = .str b := by
  simp [mkSection, getProp, lookupProp]

theorem coerceSection_mkSection (h b : String) :
    coerceSection (mkSection h b) = mkSection (jsTrim h) (jsTrim b) := by
  unfold coerceSection
  rw [getProp_mkSection_h, getProp_mkSection_body]
  rfl

theorem sectionHasText_coerceSection (s : JVal) :
    sectionHasText (coerceSection s) = sectionHasText s := by
  unfold sectionHasText coerceSection mkSection
  have h1 : getProp (JVal.obj [("h", .str (safeString (getProp s "h"))),
      ("body", .str (safeString (getProp s "body")))]) "h"
      = .str (safeString (getProp s "h")) := by
    simp [getProp, lookupProp]
  have h2 : getProp (JVal.obj [("h", .str (safeString (getProp s "h"))),
      ("body", .str (safeString (getProp s "body")))]) "body"
      = .str (safeString (getProp s "body")) := by
    simp [getProp, lookupProp]
  rw [h1, h2]
  show (jsTrim (safeString (getProp s "h")) != "" || jsTrim (safeString (getProp s "body")) != "") = _
  rw [jsTrim_safeString, jsTrim_safeString]

theorem coerceSection_idem (s : JVal) :
    coerceSection (coerceSection s) = coerceSection s := by
  show coerceSection (mkSection (safeString (getProp s "h")) (safeString (getProp s "body")))
      = coerceSection s
  rw [coerceSection_mkSection, jsTrim_safeString, jsTrim_safeString]
  rfl

theorem resolvedTitle_ne_empty (doc : JVal) {ft : String} (hft : ft ≠ "") :
    resolvedTitle doc ft ≠ "" := by
  unfold resolvedTitle jsOrStr
  split_ifs with h
  · exact hft
  · exact h

/-- C1 (corrected). For every input `doc`, fallback title and source text, the
normalizer's result has a non-empty sections array; and whenever the fallback
title is non-empty, the result's title is a non-empty string. (The claim's
unconditional title clause fails: an empty `fallbackTitle` together with an
absent/blank `doc.title` yields an empty title, see the counterexample.) -/
theorem claim1_normalizer_nonempty (doc : JVal) (ft ext : String) :
    (∃ xs, getProp (ensureDocHasContent doc ft ext) "sections" = .arr xs [] ∧ xs ≠ []) ∧
    (ft ≠ "" → ∃ t, getProp (ensureDocHasContent doc ft ext) "title" = .str t ∧ t ≠ "") := by
  constructor
  · exact ⟨_, getProp_ensureDocHasContent_sections doc ft ext,
      normalizedSections_ne_nil doc ft ext⟩
  · intro hft
    exact ⟨resolvedTitle doc ft, getProp_ensureDocHasContent_title doc ft ext,
      resolvedTitle_ne_empty doc hft⟩

/-- Witness for C1 at a concrete input. -/
theorem claim1_normalizer_nonempty_witness :
    (∃ xs, getProp (ensureDocHasContent .null "BRD" "some requirements") "sections"
        = .arr xs [] ∧ xs ≠ []) ∧
    (∃ t, getProp (ensureDocHasContent .null "BRD" "some requirements") "title"
        = .str t ∧ t ≠ "") := by
  obtain ⟨h1, h2⟩ := claim1_normalizer_nonempty .null "BRD" "some requirements"
  exact ⟨h1, h2 (by decide)⟩

/-- C1 counterexample: with an empty fallback title and an absent document, the
returned title is the empty string, refuting the claim's "title is a non-empty
string" for every fallback-title string. -/
theorem claim1_cex :
    ¬ ∃ t, getProp (ensureDocHasContent .null "" "") "title" = .str t ∧ t ≠ "" := by
  rintro ⟨t, ht, hne⟩
  have h0 : getProp (ensureDocHasContent .null "" "") "title" = .str "" := by
    rw [getProp_ensureDocHasContent_title]
    rfl
  rw [h0] at ht
  injection ht with h
  exact hne h.symm

/-- C2 (corrected). The output's sections array is exactly described by
`normalizedSections`: the two placeholder sections appear precisely when the
input's sections array is empty OR (no input section has a non-empty heading
or body AND the resolved title is empty); in every other case the input
sections are returned coerced one-for-one (same order and number — the map
preserves length). The claim's original condition omitted the "sections array
empty" disjunct, see the counterexample. -/
theorem claim2_sections_characterization (doc : JVal) (ft ext : String) :
    getProp (ensureDocHasContent doc ft ext) "sections"
        = .arr (normalizedSections doc ft ext) [] ∧
    ((docSections doc).map coerceSection).length = (docSections doc).length :=
  ⟨getProp_ensureDocHasContent_sections doc ft ext, List.length_map _ _⟩

/-- C2 counterexample: a document with a non-empty title and an empty sections
array. The claim, as stated, requires the output to keep the input sections
(zero of them, coerced); the code instead injects the two placeholders. -/
theorem claim2_cex :
    docSections (.obj [("title", .str "T"), ("sections", .arr [] [])]) = [] ∧
    resolvedTitle (.obj [("title", .str "T"), ("sections", .arr [] [])]) "X" = "T" ∧
    getProp (ensureDocHasContent
        (.obj [("title", .str "T"), ("sections", .arr [] [])]) "X" "abc") "sections"
      = .arr (placeholderSections "abc") [] ∧
    (placeholderSections "abc").length = 2 := by
  refine ⟨rfl, by decide, ?_, rfl⟩
  rw [getProp_ensureDocHasContent_sections]
  rfl

/-- C3 (corrected). With a non-empty fallback title, the normalizer's output
has a non-empty title and a non-empty sections array, and every output section
is an `{h, body}` object with string values. (The claim's "non-empty `h` and
`body` for every section" fails: sections coerced from input may keep empty
strings, see the counterexample.) -/
theorem claim3_sections_shape (doc : JVal) (ft ext : String) (hft : ft ≠ "") :
    (∃ t, getProp (ensureDocHasContent doc ft ext) "title" = .str t ∧ t ≠ "") ∧
    (∃ xs, getProp (ensureDocHasContent doc ft ext) "sections" = .arr xs [] ∧ xs ≠ [] ∧
      ∀ s ∈ xs, ∃ h b, s = mkSection h b) := by
  refine ⟨⟨resolvedTitle doc ft, getProp_ensureDocHasContent_title doc ft ext,
    resolvedTitle_ne_empty doc hft⟩,
    ⟨_, getProp_ensureDocHasContent_sections doc ft ext,
      normalizedSections_ne_nil doc ft ext, ?_⟩⟩
  intro s hs
  unfold normalizedSections at hs
  split at hs
  · simp only [placeholderSections, List.mem_cons, List.not_mem_nil, or_false] at hs
    rcases hs with h | h <;> exact ⟨_, _, h⟩
  · rw [List.mem_map] at hs
    obtain ⟨a, _, ha⟩ := hs
    exact ⟨_, _, by rw [← ha]; rfl⟩

/-- Witness for C3 at a concrete input. -/
theorem claim3_sections_shape_witness :
    (∃ t, getProp (ensureDocHasContent .undefined "FRS" "") "title" = .str t ∧ t ≠ "") ∧
    (∃ xs, getProp (ensureDocHasContent .undefined "FRS" "") "sections" = .arr xs [] ∧ xs ≠ [] ∧
      ∀ s ∈ xs, ∃ h b, s = mkSection h b) :=
  claim3_sections_shape .undefined "FRS" "" (by decide)

/-- C3 counterexample: an input section `{h: "A", body: ""}` (with another
non-empty field making the document non-empty) survives normalization with an
empty body, refuting "every section has non-empty `h`/`body`". -/
theorem claim3_cex :
    getProp (ensureDocHasContent (.obj [("sections", .arr [mkSection "A" ""] [])]) "T" "x")
        "sections" = .arr [mkSection "A" ""] [] ∧
    getProp (mkSection "A" "") "body" = .str "" := by
  constructor
  · rw [getProp_ensureDocHasContent_sections]
    rfl
  · rfl

theorem resolvedTitle_ensureDocHasContent (doc : JVal) (ft ext : String)
    (hft : jsTrim ft = ft) :
    resolvedTitle (ensureDocHasContent doc ft ext) ft = resolvedTitle doc ft := by
  unfold resolvedTitle
  rw [getProp_ensureDocHasContent_title]
  show jsOrStr (jsTrim (resolvedTitle doc ft)) ft = resolvedTitle doc ft
  unfold resolvedTitle jsOrStr
  by_cases h : safeString (getProp doc "title") = ""
  · simp only [h, if_true, hft]
    split_ifs <;> rfl
  · simp only [h, if_false, jsTrim_safeString, if_neg h]

theorem docSections_ensureDocHasContent (doc : JVal) (ft ext : String) :
    docSections (ensureDocHasContent doc ft ext) = normalizedSections doc ft ext := by
  unfold docSections
  rw [getProp_ensureDocHasContent_sections]
  rfl

theorem placeholderSections_fixed (ext : String)
    (hext : jsTrim (take1200 ext) = take1200 ext) :
    (placeholderSections ext).map coerceSection = placeholderSections ext := by
  unfold placeholderSections
  simp only [List.map_cons, List.map_nil, coerceSection_mkSection]
  have h1 : jsTrim "Overview" = "Overview" := by decide
  have h2 : jsTrim "Notes" = "Notes" := by decide
  have h3 : jsTrim notesBody = notesBody := by decide
  rw [h1, h2, h3]
  by_cases he : ext = ""
  · subst he
    rfl
  · have : (ext != "") = true := by
      simp [bne, he]
    simp only [this, if_true, hext]

theorem sectionHasText_placeholder (ext : String) :
    (placeholderSections ext).any sectionHasText = true := by
  unfold placeholderSections
  simp only [List.any_cons, Bool.or_eq_true]
  left
  unfold sectionHasText
  rw [getProp_mkSection_h]
  show (jsTrim "Overview" != "" || _) = true
  have : (jsTrim "Overview" != "") = true := by decide
  rw [this]
  rfl

theorem normalizedSections_stable (doc : JVal) (ft ext : String)
    (hft : jsTrim ft = ft) (hext : jsTrim (take1200 ext) = take1200 ext) :
    normalizedSections (ensureDocHasContent doc ft ext) ft ext
      = normalizedSections doc ft ext := by
  have hsecs := docSections_ensureDocHasContent doc ft ext
  have ht := resolvedTitle_ensureDocHasContent doc ft ext hft
  rw [normalizedSections, hsecs, ht]
  by_cases hc : ((docSections doc).isEmpty
      || ((docSections doc).all (fun s => !sectionHasText s)
          && (jsTrim (resolvedTitle doc ft) == ""))) = true
  · -- first pass injected the placeholders
    have hns : normalizedSections doc ft ext = placeholderSections ext := by
      rw [normalizedSections, if_pos hc]
    rw [hns]
    have h1 : (placeholderSections ext).isEmpty = false := rfl
    have h2 : ((placeholderSections ext).all fun s => !sectionHasText s) = false := by
      rw [all_not_eq_not_any, sectionHasText_placeholder]
      rfl
    rw [h1, h2]
    simp only [Bool.false_and, Bool.or_false, if_false]
    exact placeholderSections_fixed ext hext
  · -- first pass coerced the input sections
    have hcfalse : ((docSections doc).isEmpty
        || ((docSections doc).all (fun s => !sectionHasText s)
            && (jsTrim (resolvedTitle doc ft) == ""))) = false :=
      eq_false_of_ne_true hc
    have hns : normalizedSections doc ft ext = (docSections doc).map coerceSection := by
      rw [normalizedSections, if_neg hc]
    rw [hns]
    rw [Bool.or_eq_false_iff] at hcfalse
    obtain ⟨hempty, hrest⟩ := hcfalse
    have h1 : ((docSections doc).map coerceSection).isEmpty = false := by
      cases h : docSections doc
      · rw [h] at hempty
        simp [List.isEmpty] at hempty
      · rfl
    have h2 : (((docSections doc).map coerceSection).all fun s => !sectionHasText s)
        = ((docSections doc).all fun s => !sectionHasText s) := by
      rw [List.all_map]
      have hcomp : ((fun s => !sectionHasText s) ∘ coerceSection)
          = (fun s : JVal => !sectionHasText s) := by
        funext a
        simp [Function.comp, sectionHasText_coerceSection]
      rw [hcomp]
    rw [h1, h2, hrest]
    simp only [Bool.false_or, if_false]
    simp [List.map_map, Function.comp, coerceSection_idem]

/-- C4 (corrected). Normalization is idempotent provided the fixed
`fallbackTitle` is trim-stable and the first 1200 characters of the source
text are trim-stable. (Unrestricted idempotence fails: an untrimmed fallback
title — or whitespace at the edges of the injected Overview body — is trimmed
only by the second pass, see the counterexample.) -/
theorem claim4_idempotent (doc : JVal) (ft ext : String)
    (hft : jsTrim ft = ft) (hext : jsTrim (take1200 ext) = take1200 ext) :
    ensureDocHasContent (ensureDocHasContent doc ft ext) ft ext
      = ensureDocHasContent doc ft ext := by
  have hobjR : objLike (ensureDocHasContent doc ft ext) = true := by
    rw [ensureDocHasContent_shape, objLike_setProp, objLike_setProp]
    exact objLike_ite_base doc
  rw [ensureDocHasContent_shape (ensureDocHasContent doc ft ext) ft ext]
  rw [if_pos hobjR]
  rw [resolvedTitle_ensureDocHasContent doc ft ext hft,
    normalizedSections_stable doc ft ext hft hext]
  have hkeyT : hasKeyJ (ensureDocHasContent doc ft ext) "title" = true := by
    rw [ensureDocHasContent_shape]
    exact hasKeyJ_setProp_mono _ _
      (hasKeyJ_setProp_self _ _ (objLike_ite_base doc))
  have hstep1 : setProp (ensureDocHasContent doc ft ext) "title"
      (.str (resolvedTitle doc ft)) = ensureDocHasContent doc ft ext :=
    setProp_eq_self hkeyT (getProp_ensureDocHasContent_title doc ft ext)
  rw [hstep1]
  have hkeyS : hasKeyJ (ensureDocHasContent doc ft ext) "sections" = true := by
    rw [ensureDocHasContent_shape]
    apply hasKeyJ_setProp_self
    rw [objLike_setProp]
    exact objLike_ite_base doc
  exact setProp_eq_self hkeyS (getProp_ensureDocHasContent_sections doc ft ext)

/-- Witness for C4 at a concrete input. -/
theorem claim4_idempotent_witness :
    ensureDocHasContent (ensureDocHasContent (.obj [("title", .str "  hi  ")]) "BRD" "text")
        "BRD" "text"
      = ensureDocHasContent (.obj [("title", .str "  hi  ")]) "BRD" "text" :=
  claim4_idempotent (.obj [("title", .str "  hi  ")]) "BRD" "text" (by decide) (by decide)

/-- C4 counterexample: with the untrimmed fallback title `" T "`, the first
pass titles the document `" T "` but the second pass trims it to `"T"`, so
`normalize (normalize d) ≠ normalize d`. -/
theorem claim4_cex :
    ensureDocHasContent (ensureDocHasContent .null " T " "") " T " ""
      ≠ ensureDocHasContent .null " T " "" := by
  intro h
  have h1 := congrArg (fun v => getProp v "title") h
  simp only at h1
  have e2 : getProp (ensureDocHasContent .null " T " "") "title" = .str " T " := by
    rw [getProp_ensureDocHasContent_title]
    rfl
  have e1 : getProp (ensureDocHasContent (ensureDocHasContent .null " T " "") " T " "")
      "title" = .str "T" := by
    rw [getProp_ensureDocHasContent_title]
    unfold resolvedTitle
    rw [e2]
    rfl
  rw [e1, e2] at h1
  injection h1 with h2
  exact absurd h2 (by decide)

/-! ### HTML generation (`escapeHtml`, `docToConfluenceHtml`, `raidToConfluenceHtml`) -/

/-- The double-quote character. -/
def quotC : Char := Char.ofNat 34

/-- The single-quote character. -/
def aposC : Char := Char.ofNat 39

/-- Replace every occurrence of the character `c` by the list `r`. -/
def repC (l : List Char) (c : Char) (r : List Char) : List Char :=
  (l.map fun a => if a = c then r else [a]).flatten

/-- `String.prototype.replaceAll` with a single-character pattern. -/
def replaceAllChar (s : String) (c : Char) (r : String) : String :=
  ⟨repC s.data c r.data⟩

/-- `??` nullish coalescing against `""`, as in `String(s ?? "")`. -/
def nullishToEmpty : JVal → JVal
  | .null => .str ""
  | .undefined => .str ""
  | x => x

/-- `escapeHtml(s)`: stringify and replace the five HTML special characters by
entities, in the source's order (`&`, `<`, `>`, `"`, `'`). -/
def escapeHtml (v : JVal) : String :=
  replaceAllChar (replaceAllChar (replaceAllChar (replaceAllChar (replaceAllChar
    (jsToString (nullishToEmpty v)) '&' "&amp;") '<' "&lt;") '>' "&gt;")
    quotC "&quot;") aposC "&#039;"

/-- Per-character view of the five entity replacements. -/
def escapeChar (c : Char) : List Char :=
  if c = '&' then "&amp;".data
  else if c = '<' then "&lt;".data
  else if c = '>' then "&gt;".data
  else if c = quotC then "&quot;".data
  else if c = aposC then "&#039;".data
  else [c]

/-- The five replacements composed. -/
def rep5 (l : List Char) : List Char :=
  repC (repC (repC (repC (repC l '&' "&amp;".data) '<' "&lt;".data) '>' "&gt;".data)
    quotC "&quot;".data) aposC "&#039;".data

theorem repC_append (x y : List Char) (c : Char) (r : List Char) :
    repC (x ++ y) c r = repC x c r ++ repC y c r := by
  simp [repC]

theorem rep5_append (x y : List Char) : rep5 (x ++ y) = rep5 x ++ rep5 y := by
  simp [rep5, repC_append]

theorem rep5_single (a : Char) : rep5 [a] = escapeChar a := by
  by_cases h1 : a = '&'
  · subst h1; decide
  by_cases h2 : a = '<'
  · subst h2; decide
  by_cases h3 : a = '>'
  · subst h3; decide
  by_cases h4 : a = quotC
  · subst h4; decide
  by_cases h5 : a = aposC
  · subst h5; decide
  simp [rep5, repC, escapeChar, h1, h2, h3, h4, h5]

theorem rep5_eq_map (l : List Char) : rep5 l = (l.map escapeChar).flatten := by
  induction l with
  | nil => rfl
  | cons a t ih =>
    have hcons : (a :: t) = [a] ++ t := rfl
    rw [hcons, rep5_append, rep5_single, ih, List.map_append, List.flatten_append]
    simp

theorem escapeHtml_eq_map (v : JVal) :
    escapeHtml v = ⟨((jsToString (nullishToEmpty v)).data.map escapeChar).flatten⟩ := by
  show String.mk (rep5 (jsToString (nullishToEmpty v)).data) = _
  rw [rep5_eq_map]

/-- Well-escapedness: none of `<`, `>`, `"`, `'` occur, and every `&` starts
one of the five entities emitted by `escapeHtml`. -/
def escOk : List Char → Bool
  | [] => true
  | c :: rest =>
    if c = '&' then
      (["amp;".data, "lt;".data, "gt;".data, "quot;".data, "#039;".data].any
        fun e => e.isPrefixOf rest) && escOk rest
    else (!(c = '<' || c = '>' || c = quotC || c = aposC)) && escOk rest

theorem escOk_cons_plain (c : Char) (rest : List Char) (hc : c ≠ '&') (h2 : c ≠ '<')
    (h3 : c ≠ '>') (h4 : c ≠ quotC) (h5 : c ≠ aposC) :
    escOk (c :: rest) = escOk rest := by
  simp [escOk, hc, h2, h3, h4, h5]

theorem isPrefixOf_append_self (l t : List Char) : l.isPrefixOf (l ++ t) = true := by
  rw [List.isPrefixOf_iff_prefix]
  exact List.prefix_append _ _

theorem escOk_entity_amp (rest : List Char) (h : escOk rest = true) :
    escOk ("&amp;".data ++ rest) = true := by
  show escOk ('&' :: ("amp;".data ++ rest)) = true
  simp only [escOk, if_pos rfl, List.any_cons, isPrefixOf_append_self, Bool.true_or,
    Bool.true_and]
  show escOk ('a' :: 'm' :: 'p' :: ';' :: rest) = true
  rw [escOk_cons_plain _ _ (by decide) (by decide) (by decide) (by decide) (by decide),
    escOk_cons_plain _ _ (by decide) (by decide) (by decide) (by decide) (by decide),
    escOk_cons_plain _ _ (by decide) (by decide) (by decide) (by decide) (by decide),
    escOk_cons_plain _ _ (by decide) (by decide) (by decide) (by decide) (by decide)]
  exact h

theorem escOk_block (a : Char) (rest : List Char) (h : escOk rest = true) :
    escOk (escapeChar a ++ rest) = true := by
  by_cases h1 : a = '&'
  · subst h1
    show escOk ("&amp;".data ++ rest) = true
    exact escOk_entity_amp rest h
  by_cases h2 : a = '<'
  · subst h2
    show escOk ('&' :: ("lt;".data ++ rest)) = true
    simp only [escOk, if_pos rfl, List.any_cons, isPrefixOf_append_self, Bool.true_or,
      Bool.or_true, Bool.true_and]
    show escOk ('l' :: 't' :: ';' :: rest) = true
    rw [escOk_cons_plain _ _ (by decide) (by decide) (by decide) (by decide) (by decide),
      escOk_cons_plain _ _ (by decide) (by decide) (by decide) (by decide) (by decide),
      escOk_cons_plain _ _ (by decide) (by decide) (by decide) (by decide) (by decide)]
    exact h
  by_cases h3 : a = '>'
  · subst h3
    show escOk ('&' :: ("gt;".data ++ rest)) = true
    simp only [escOk, if_pos rfl, List.any_cons, isPrefixOf_append_self, Bool.true_or,
      Bool.or_true, Bool.true_and]
    show escOk ('g' :: 't' :: ';' :: rest) = true
    rw [escOk_cons_plain _ _ (by decide) (by decide) (by decide) (by decide) (by decide),
      escOk_cons_plain _ _ (by decide) (by decide) (by decide) (by decide) (by decide),
      escOk_cons_plain _ _ (by decide) (by decide) (by decide) (by decide) (by decide)]
    exact h
  by_cases h4 : a = quotC
  · subst h4
    show escOk ('&' :: ("quot;".data ++ rest)) = true
    simp only [escOk, if_pos rfl, List.any_cons, isPrefixOf_append_self, Bool.true_or,
      Bool.or_true, Bool.true_and]
    show escOk ('q' :: 'u' :: 'o' :: 't' :: ';' :: rest) = true
    rw [escOk_cons_plain _ _ (by decide) (by decide) (by decide) (by decide) (by decide),
      escOk_cons_plain _ _ (by decide) (by decide) (by decide) (by decide) (by decide),
      escOk_cons_plain _ _ (by decide) (by decide) (by decide) (by decide) (by decide),
      escOk_cons_plain _ _ (by decide) (by decide) (by decide) (by decide) (by decide),
      escOk_cons_plain _ _ (by decide) (by decide) (by decide) (by decide) (by decide)]
    exact h
  by_cases h5 : a = aposC
  · subst h5
    show escOk ('&' :: ("#039;".data ++ rest)) = true
    simp only [escOk, if_pos rfl, List.any_cons, isPrefixOf_append_self, Bool.true_or,
      Bool.or_true, Bool.true_and]
    show escOk ('#' :: '0' :: '3' :: '9' :: ';' :: rest) = true
    rw [escOk_cons_plain _ _ (by decide) (by decide) (by decide) (by decide) (by decide),
      escOk_cons_plain _ _ (by decide) (by decide) (by decide) (by decide) (by decide),
      escOk_cons_plain _ _ (by decide) (by decide) (by decide) (by decide) (by decide),
      escOk_cons_plain _ _ (by decide) (by decide) (by decide) (by decide) (by decide),
      escOk_cons_plain _ _ (by decide) (by decide) (by decide) (by decide) (by decide)]
    exact h
  · have hchar : escapeChar a = [a] := by
      simp [escapeChar, h1, h2, h3, h4, h5]
    rw [hchar]
    show escOk (a :: rest) = true
    rw [escOk_cons_plain a rest h1 h2 h3 h4 h5]
    exact h

theorem escOk_flatten_map (l : List Char) : escOk ((l.map escapeChar).flatten) = true := by
  induction l with
  | nil => rfl
  | cons a t ih =>
    rw [List.map_cons, List.flatten_cons]
    exact escOk_block a _ ih

/-- Newlines become `<br/>` tags (section bodies). -/
def brTransform (s : String) : String := replaceAllChar s '\n' "<br/>"

/-- `docToConfluenceHtml(doc)` (src/server.js). -/
def docToConfluenceHtml (doc : JVal) : String :=
  if !truthy doc then "<p>(empty)</p>"
  else
    let sections := if isArray (getProp doc "sections") then asElems (getProp doc "sections") else []
    let h1 := "<h1>" ++ escapeHtml (jsOr (getProp doc "title") (.str "")) ++ "</h1>"
    if sections.length == 0 then h1 ++ "<p>(No sections)</p>"
    else
      h1 ++ String.join (sections.map fun sec =>
        "<h2>" ++ escapeHtml (jsOr (getProp sec "h") (.str "")) ++ "</h2>"
          ++ "<p>" ++ brTransform (escapeHtml (jsOr (getProp sec "body") (.str ""))) ++ "</p>")

/-- One `<tr>` row of a RAID table (src/server.js, template literal inside `list`). -/
def raidItemRow (withMitigation : Bool) (x : JVal) : String :=
  let item := escapeHtml (jsOr (getProp x "item") (.str ""))
  let owner := escapeHtml (jsOr (getProp x "owner") (.str "TBD"))
  let status := escapeHtml (jsOr (getProp x "status") (.str "TBD"))
  let mit := if withMitigation then escapeHtml (jsOr (getProp x "mitigation") (.str "")) else ""
  "\n                <tr>\n                  <td><strong>" ++ item
    ++ "</strong><br/><em>Owner:</em> " ++ owner
    ++ " &nbsp; <em>Status:</em> " ++ status
    ++ (if withMitigation && mit != "" then "<br/><em>Mitigation:</em> " ++ mit else "")
    ++ "</td>\n                </tr>\n              "

/-- The `list(items, withMitigation)` helper of `raidToConfluenceHtml`. -/
def raidList (items : JVal) (withMitigation : Bool) : String :=
  let arr := if isArray items then asElems items else []
  if arr.length == 0 then "<p>(none)</p>"
  else
    "\n      <table>\n        <tbody>\n          "
      ++ String.join (arr.map (raidItemRow withMitigation))
      ++ "\n        </tbody>\n      </table>\n    "

/-- `raidToConfluenceHtml(raid)` (src/server.js). -/
def raidToConfluenceHtml (raid : JVal) : String :=
  let r := if truthy raid && isObjectType raid then raid else .obj []
  let title := jsOrStr (safeString (getProp r "title")) "RAID Log"
  "\n    <h1>" ++ escapeHtml (.str title) ++ "</h1>\n    <h2>Risks</h2>\n    "
    ++ raidList (getProp r "risks") true
    ++ "\n    <h2>Assumptions</h2>\n    " ++ raidList (getProp r "assumptions") false
    ++ "\n    <h2>Issues</h2>\n    " ++ raidList (getProp r "issues") false
    ++ "\n    <h2>Dependencies</h2>\n    " ++ raidList (getProp r "dependencies") false
    ++ "\n  "

theorem jsOr_str_str (a b : String) : jsOr (.str a) (.str b) = .str (jsOrStr a b) := by
  unfold jsOr jsOrStr truthy
  by_cases h : a = ""
  · simp [h]
  · simp [h]

theorem jsOr_str_empty (a : String) : jsOr (.str a) (.str "") = .str a := by
  rw [jsOr_str_str]
  unfold jsOrStr
  by_cases h : a = ""
  · simp [h]
  · simp [h]

/-- A document whose title and section headings/bodies are plain strings. -/
def strDoc (title : String) (secs : List (String × String)) : JVal :=
  .obj [("title", .str title),
        ("sections", .arr (secs.map fun p => mkSection p.1 p.2) [])]

/-- The expected page markup for `strDoc`: fixed tags interleaved with
`escapeHtml`-ed inputs only (bodies additionally newline→`<br/>`). -/
def docHtmlTemplate (title : String) (secs : List (String × String)) : String :=
  "<h1>" ++ escapeHtml (.str title) ++ "</h1>"
    ++ (if secs.length == 0 then "<p>(No sections)</p>"
        else String.join (secs.map fun p =>
          "<h2>" ++ escapeHtml (.str p.1) ++ "</h2>"
            ++ "<p>" ++ brTransform (escapeHtml (.str p.2)) ++ "</p>"))

/-- A RAID row built from plain strings (item, owner, status, mitigation). -/
def strRaidItem (q : String × String × String × String) : JVal :=
  .obj [("item", .str q.1), ("owner", .str q.2.1),
        ("status", .str q.2.2.1), ("mitigation", .str q.2.2.2)]

/-- A RAID log whose four arrays hold string-field rows. -/
def strRaid (title : String) (rs asms iss deps : List (String × String × String × String)) : JVal :=
  .obj [("title", .str title),
        ("risks", .arr (rs.map strRaidItem) []),
        ("assumptions", .arr (asms.map strRaidItem) []),
        ("issues", .arr (iss.map strRaidItem) []),
        ("dependencies", .arr (deps.map strRaidItem) [])]

/-- The expected row markup: every input field passes through `escapeHtml`
(owner/status default to "TBD" when empty, mitigation rendered only for the
risks table and only when non-empty). -/
def raidRowTemplate (withMitigation : Bool) (q : String × String × String × String) : String :=
  "\n                <tr>\n                  <td><strong>" ++ escapeHtml (.str q.1)
    ++ "</strong><br/><em>Owner:</em> " ++ escapeHtml (.str (jsOrStr q.2.1 "TBD"))
    ++ " &nbsp; <em>Status:</em> " ++ escapeHtml (.str (jsOrStr q.2.2.1 "TBD"))
    ++ (if withMitigation && escapeHtml (.str q.2.2.2) != "" then
          "<br/><em>Mitigation:</em> " ++ escapeHtml (.str q.2.2.2)
        else "")
    ++ "</td>\n                </tr>\n              "

/-- The expected table markup for one RAID array. -/
def raidListTemplate (withMitigation : Bool)
    (items : List (String × String × String × String)) : String :=
  if items.length == 0 then "<p>(none)</p>"
  else
    "\n      <table>\n        <tbody>\n          "
      ++ String.join (items.map (raidRowTemplate withMitigation))
      ++ "\n        </tbody>\n      </table>\n    "

/-- The expected page markup for `strRaid`. -/
def raidHtmlTemplate (title : String)
    (rs asms iss deps : List (String × String × String × String)) : String :=
  "\n    <h1>" ++ escapeHtml (.str (jsOrStr (jsTrim title) "RAID Log"))
    ++ "</h1>\n    <h2>Risks</h2>\n    " ++ raidListTemplate true rs
    ++ "\n    <h2>Assumptions</h2>\n    " ++ raidListTemplate false asms
    ++ "\n    <h2>Issues</h2>\n    " ++ raidListTemplate false iss
    ++ "\n    <h2>Dependencies</h2>\n    " ++ raidListTemplate false deps
    ++ "\n  "

theorem raidItemRow_str (withMitigation : Bool) (q : String × String × String × String) :
    raidItemRow withMitigation (strRaidItem q) = raidRowTemplate withMitigation q := by
  unfold raidItemRow strRaidItem raidRowTemplate
  have hitem : getProp (JVal.obj [("item", .str q.1), ("owner", .str q.2.1),
      ("status", .str q.2.2.1), ("mitigation", .str q.2.2.2)]) "item" = .str q.1 := by
    simp [getProp, lookupProp]
  have howner : getProp (JVal.obj [("item", .str q.1), ("owner", .str q.2.1),
      ("status", .str q.2.2.1), ("mitigation", .str q.2.2.2)]) "owner" = .str q.2.1 := by
    simp [getProp, lookupProp]
  have hstatus : getProp (JVal.obj [("item", .str q.1), ("owner", .str q.2.1),
      ("status", .str q.2.2.1), ("mitigation", .str q.2.2.2)]) "status" = .str q.2.2.1 := by
    simp [getProp, lookupProp]
  have hmit : getProp (JVal.obj [("item", .str q.1), ("owner", .str q.2.1),
      ("status", .str q.2.2.1), ("mitigation", .str q.2.2.2)]) "mitigation" = .str q.2.2.2 := by
    simp [getProp, lookupProp]
  rw [hitem, howner, hstatus, hmit, jsOr_str_empty, jsOr_str_str, jsOr_str_str, jsOr_str_empty]
  cases withMitigation
  · simp
  · simp

theorem raidList_str (withMitigation : Bool)
    (items : List (String × String × String × String)) :
    raidList (.arr (items.map strRaidItem) []) withMitigation
      = raidListTemplate withMitigation items := by
  unfold raidList raidListTemplate
  simp only [isArray, if_true, asElems, List.length_map]
  by_cases h : items.length == 0
  · simp only [h, if_true]
  · simp only [h, if_false]
    have hmaps : (items.map strRaidItem).map (raidItemRow withMitigation)
        = items.map (raidRowTemplate withMitigation) := by
      rw [List.map_map]
      have : (raidItemRow withMitigation ∘ strRaidItem) = raidRowTemplate withMitigation := by
        funext q
        exact raidItemRow_str withMitigation q
      rw [this]
    rw [hmaps]

/-- C10 (confirmed). Every string embedded in the generated Confluence markup
passes through `escapeHtml` first — the output of `escapeHtml` never contains
a raw `<`, `>`, `"` or `'`, and every `&` in it starts one of the five
emitted entities (`escOk`); and both page builders interleave only fixed
template markup with `escapeHtml`-ed inputs, newlines in section bodies
becoming `<br/>`. -/
theorem claim10_html_escaping :
    (∀ v : JVal, escOk (escapeHtml v).data = true) ∧
    (∀ (title : String) (secs : List (String × String)),
      docToConfluenceHtml (strDoc title secs) = docHtmlTemplate title secs) ∧
    (∀ (title : String) (rs asms iss deps : List (String × String × String × String)),
      raidToConfluenceHtml (strRaid title rs asms iss deps)
        = raidHtmlTemplate title rs asms iss deps) := by
  refine ⟨?_, ?_, ?_⟩
  · intro v
    rw [escapeHtml_eq_map]
    exact escOk_flatten_map _
  · intro title secs
    have htitle : getProp (strDoc title secs) "title" = .str title := by
      simp [strDoc, getProp, lookupProp]
    have hsecs : getProp (strDoc title secs) "sections"
        = .arr (secs.map fun p => mkSection p.1 p.2) [] := by
      simp [strDoc, getProp, lookupProp]
    have hnottruthy : (!truthy (strDoc title secs)) = false := rfl
    simp only [docToConfluenceHtml, docHtmlTemplate, hnottruthy, htitle, hsecs]
    rw [if_neg Bool.false_ne_true]
    simp only [isArray, if_true, asElems, List.length_map, jsOr_str_empty]
    by_cases h : (secs.length == 0) = true
    · rw [h, if_pos rfl, if_pos rfl]
    · have hf : (secs.length == 0) = false := eq_false_of_ne_true h
      rw [hf, if_neg Bool.false_ne_true, if_neg Bool.false_ne_true]
      have hmaps : ((secs.map fun p => mkSection p.1 p.2).map fun sec =>
            "<h2>" ++ escapeHtml (jsOr (getProp sec "h") (.str "")) ++ "</h2>"
              ++ "<p>" ++ brTransform (escapeHtml (jsOr (getProp sec "body") (.str ""))) ++ "</p>")
          = secs.map fun p =>
            "<h2>" ++ escapeHtml (.str p.1) ++ "</h2>"
              ++ "<p>" ++ brTransform (escapeHtml (.str p.2)) ++ "</p>" := by
        rw [List.map_map]
        have hcomp : ((fun sec =>
              "<h2>" ++ escapeHtml (jsOr (getProp sec "h") (.str "")) ++ "</h2>"
                ++ "<p>" ++ brTransform (escapeHtml (jsOr (getProp sec "body") (.str ""))) ++ "</p>")
            ∘ fun p : String × String => mkSection p.1 p.2)
            = fun p : String × String =>
              "<h2>" ++ escapeHtml (.str p.1) ++ "</h2>"
                ++ "<p>" ++ brTransform (escapeHtml (.str p.2)) ++ "</p>" := by
          funext p
          simp only [Function.comp_apply, getProp_mkSection_h, getProp_mkSection_body,
            jsOr_str_empty]
        rw [hcomp]
      rw [hmaps]
  · intro title rs asms iss deps
    have ht : getProp (strRaid title rs asms iss deps) "title" = .str title := by
      simp [strRaid, getProp, lookupProp]
    have hr : getProp (strRaid title rs asms iss deps) "risks"
        = .arr (rs.map strRaidItem) [] := by
      simp [strRaid, getProp, lookupProp]
    have ha : getProp (strRaid title rs asms iss deps) "assumptions"
        = .arr (asms.map strRaidItem) [] := by
      simp [strRaid, getProp, lookupProp]
    have hi : getProp (strRaid title rs asms iss deps) "issues"
        = .arr (iss.map strRaidItem) [] := by
      simp [strRaid, getProp, lookupProp]
    have hd : getProp (strRaid title rs asms iss deps) "dependencies"
        = .arr (deps.map strRaidItem) [] := by
      simp [strRaid, getProp, lookupProp]
    have hobj : (truthy (strRaid title rs asms iss deps)
        && isObjectType (strRaid title rs asms iss deps)) = true := rfl
    simp only [raidToConfluenceHtml, hobj, if_true]
    rw [ht, hr, ha, hi, hd]
    rw [raidList_str, raidList_str, raidList_str, raidList_str]
    simp only [raidHtmlTemplate, safeString]

/-! ### The issue-tracker client (`jiraCreateStoryWithEpic`, src/server.js) -/

/-- The fields object passed to `jiraCreateIssue` (project key, issue type,
summary, the description's text, labels, optional `parent` reference, optional
`Epic Link` custom field as (field id, epic key)). -/
structure IssueFields where
  projectKey : String
  issuetype : String
  summary : JVal
  descText : JVal
  labels : List String
  parentKey : Option String := none
  epicLinkField : Option (String × String) := none
deriving Repr

/-- A created issue as returned by the tracker (`{id, key}`). -/
structure IssueRes where
  id : String
  key : String
deriving Repr

/-- The base Story fields (no linkage), as built in all three tiers. -/
def storyFields (jiraProjectKey : String) (summary : JVal) (descText : String)
    (labels : List String) : IssueFields :=
  { projectKey := jiraProjectKey, issuetype := "Story", summary := summary,
    descText := .str descText, labels := labels }

/-- `jiraCreateStoryWithEpic` (src/server.js): three-tier creation.
`createIssue` is the tracker call (throwing modelled as `Except.error`);
`findEpicLink` is the outcome of `jiraFindEpicLinkFieldId()` — note that in
the source this lookup is NOT inside the tier-2 `try`, so its failure
propagates to the caller. Returns the result together with the list of
`createIssue` attempts, in order. -/
def jiraCreateStoryWithEpic (createIssue : IssueFields → Except String IssueRes)
    (findEpicLink : Except String (Option String))
    (jiraProjectKey : String) (epicKey : Option String)
    (summary : JVal) (descText : String) (labels : List String) :
    Except String IssueRes × List IssueFields :=
  let base := storyFields jiraProjectKey summary descText labels
  match epicKey with
  | none => (createIssue base, [base])
  | some k =>
    let f1 : IssueFields := { base with parentKey := some k }
    match createIssue f1 with
    | .ok r => (.ok r, [f1])
    | .error _ =>
      match findEpicLink with
      | .error e => (.error e, [f1])
      | .ok none => (createIssue base, [f1, base])
      | .ok (some fid) =>
        let f2 : IssueFields := { base with epicLinkField := some (fid, k) }
        match createIssue f2 with
        | .ok r => (.ok r, [f1, f2])
        | .error _ => (createIssue base, [f1, f2, base])

/-- C6 (corrected). With an epic key, tier 1 (direct `parent`) is attempted
first and short-circuits on success; on tier-1 failure the `Epic Link` field
id is looked up and, when found, tier 2 is attempted and short-circuits on
success; on tier-2 failure (or when the lookup finds no field, or when no
epic key is given) the unlinked tier-3 creation runs and its outcome is what
the caller sees. EXCEPTION to the claim: when the field-id lookup itself
fails, that failure is surfaced immediately and tier 3 is never attempted —
the lookup sits outside the tier-2 `try` in the source. -/
theorem claim6_three_tier (createIssue : IssueFields → Except String IssueRes)
    (findEpicLink : Except String (Option String))
    (pk : String) (k : String) (summary : JVal) (d : String) (ls : List String) :
    (jiraCreateStoryWithEpic createIssue findEpicLink pk none summary d ls
        = (createIssue (storyFields pk summary d ls), [storyFields pk summary d ls])) ∧
    (∀ r, createIssue { storyFields pk summary d ls with parentKey := some k } = .ok r →
      jiraCreateStoryWithEpic createIssue findEpicLink pk (some k) summary d ls
        = (.ok r, [{ storyFields pk summary d ls with parentKey := some k }])) ∧
    (∀ e, createIssue { storyFields pk summary d ls with parentKey := some k } = .error e →
      (∀ el, findEpicLink = .error el →
        jiraCreateStoryWithEpic createIssue findEpicLink pk (some k) summary d ls
          = (.error el, [{ storyFields pk summary d ls with parentKey := some k }])) ∧
      (findEpicLink = .ok none →
        jiraCreateStoryWithEpic createIssue findEpicLink pk (some k) summary d ls
          = (createIssue (storyFields pk summary d ls),
             [{ storyFields pk summary d ls with parentKey := some k },
              storyFields pk summary d ls])) ∧
      (∀ fid, findEpicLink = .ok (some fid) →
        (∀ r2, createIssue { storyFields pk summary d ls with epicLinkField := some (fid, k) }
            = .ok r2 →
          jiraCreateStoryWithEpic createIssue findEpicLink pk (some k) summary d ls
            = (.ok r2, [{ storyFields pk summary d ls with parentKey := some k },
                        { storyFields pk summary d ls with epicLinkField := some (fid, k) }])) ∧
        (∀ e2, createIssue { storyFields pk summary d ls with epicLinkField := some (fid, k) }
            = .error e2 →
          jiraCreateStoryWithEpic createIssue findEpicLink pk (some k) summary d ls
            = (createIssue (storyFields pk summary d ls),
               [{ storyFields pk summary d ls with parentKey := some k },
                { storyFields pk summary d ls with epicLinkField := some (fid, k) },
                storyFields pk summary d ls])))) := by
  refine ⟨rfl, ?_, ?_⟩
  · intro r h1
    simp only [jiraCreateStoryWithEpic, h1]
  · intro e h1
    refine ⟨?_, ?_, ?_⟩
    · intro el hel
      simp only [jiraCreateStoryWithEpic, h1, hel]
    · intro hnone
      simp only [jiraCreateStoryWithEpic, h1, hnone]
    · intro fid hfid
      constructor
      · intro r2 h2
        simp only [jiraCreateStoryWithEpic, h1, hfid, h2]
      · intro e2 h2
        simp only [jiraCreateStoryWithEpic, h1, hfid, h2]

/-- Witness for C6 at concrete oracles: tier 1 fails, the field lookup finds
`customfield_10014`, tier 2 succeeds — exactly two attempts, result is tier 2's. -/
theorem claim6_three_tier_witness :
    jiraCreateStoryWithEpic
        (fun f => if f.parentKey.isSome then .error "tier1 rejected"
                  else .ok ⟨"10001", "PM-2"⟩)
        (.ok (some "customfield_10014")) "PM" (some "PM-1") (.str "story") "text" []
      = (.ok ⟨"10001", "PM-2"⟩,
         [{ storyFields "PM" (.str "story") "text" [] with parentKey := some "PM-1" },
          { storyFields "PM" (.str "story") "text" [] with
              epicLinkField := some ("customfield_10014", "PM-1") }]) := by
  have h := (claim6_three_tier
      (fun f => if f.parentKey.isSome then .error "tier1 rejected"
                else .ok ⟨"10001", "PM-2"⟩)
      (.ok (some "customfield_10014")) "PM" "PM-1" (.str "story") "text" []).2.2
      "tier1 rejected" rfl
  exact (h.2.2 "customfield_10014" rfl).1 ⟨"10001", "PM-2"⟩ rfl

/-! ### The `/fully-automate` orchestrator (src/server.js) -/

/-- The fixed part of the prompt that follows the interpolated requirements. -/
def promptSuffix : String :=
  "\n\nGenerate STRICT JSON with these keys only:\n\n\x7b\n"
  ++ "  \"meta\": \x7b \"projectName\": string, \"jiraProjectKey\": string, \"confluenceSpaceKey\": string \x7d,\n"
  ++ "  \"docs\": \x7b\n"
  ++ "    \"brd\": \x7b \"title\": string, \"sections\": [\x7b \"h\": string, \"body\": string \x7d] \x7d,\n"
  ++ "    \"frs\": \x7b \"title\": string, \"sections\": [\x7b \"h\": string, \"body\": string \x7d] \x7d,\n"
  ++ "    \"sow\": \x7b \"title\": string, \"sections\": [\x7b \"h\": string, \"body\": string \x7d] \x7d,\n"
  ++ "    \"raid\": \x7b\n"
  ++ "      \"title\": string,\n"
  ++ "      \"risks\": [\x7b \"item\": string, \"mitigation\": string, \"owner\": string, \"status\": string \x7d],\n"
  ++ "      \"assumptions\": [\x7b \"item\": string, \"owner\": string, \"status\": string \x7d],\n"
  ++ "      \"issues\": [\x7b \"item\": string, \"owner\": string, \"status\": string \x7d],\n"
  ++ "      \"dependencies\": [\x7b \"item\": string, \"owner\": string, \"status\": string \x7d]\n"
  ++ "    \x7d,\n"
  ++ "    \"backlogSummary\": \x7b \"title\": string, \"body\": string \x7d\n"
  ++ "  \x7d,\n"
  ++ "  \"backlog\": \x7b\n"
  ++ "    \"epics\": [\x7b \"name\": string, \"description\": string \x7d],\n"
  ++ "    \"stories\": [\x7b\n"
  ++ "      \"epicName\": string,\n"
  ++ "      \"summary\": string,\n"
  ++ "      \"story\": string,\n"
  ++ "      \"acceptanceCriteria\": [string],\n"
  ++ "      \"priority\": \"P0\"|\"P1\"|\"P2\"|\"P3\",\n"
  ++ "      \"storyPoints\": 1|2|3|5|8|13\n"
  ++ "    \x7d]\n"
  ++ "  \x7d,\n"
  ++ "  \"notes\": \x7b \"assumptions\": [string], \"openQuestions\": [string] \x7d\n"
  ++ "\x7d\n\nRules:\n"
  ++ "- MUST populate docs.*.sections with meaningful content (at least 4 sections each) even if you must infer.\n"
  ++ "- RAID arrays must contain at least 2 items each; if unknown, add sensible placeholders and add to notes.assumptions.\n"
  ++ "- Story points must follow Fibonacci (1,2,3,5,8,13).\n"
  ++ "- No severity.\n"
  ++ "- If info is missing, add to notes.assumptions and proceed.\n"
  ++ "- Keep output concise but complete.\n"

/-- The full prompt, a template literal trimmed at the end (`.trim()`). -/
def promptFor (extracted : String) : String :=
  jsTrim ("\nYou are a PM automation engine.\n\nInput requirements:\n" ++ extracted ++ promptSuffix)

/-- A created page as the publish flow uses it (`id`, `_links.webui` with `""`
for an absent link). -/
structure PageRes where
  id : String
  webui : String
deriving Repr

/-- One observable downstream call made by the handler. -/
inductive Call where
  | llm (prompt : String)
  | spaceLookup (key : String)
  | pageCreate (spaceKey title html : String) (parentId : Option String)
  | issueCreate (fields : IssueFields)
deriving Repr

/-- The handler's collaborators: the completion capability, `JSON.parse`, the
Atlassian site and clients, `uniqueTitle` and `Date.now().toString()` (both
impure in the source) as oracles. -/
structure Env where
  openaiConfigured : Bool
  llm : String → Except String String
  parseJson : String → Option JVal
  site : String
  getSpace : String → JVal
  createPage : String → String → String → Option String → Except String PageRes
  createIssue : IssueFields → Except String IssueRes
  findEpicLink : Except String (Option String)
  uniq : String → String
  runId : String

/-- The request fields the handler destructures (multipart fields are strings;
`fileContent` is the uploaded file's UTF-8 text when present). -/
structure Req where
  publish : Bool
  requirementsText : String
  projectName : String
  jiraProjectKey : String
  confluenceSpaceKey : String
  labels : String
  fileContent : Option String

/-- The three ways the handler responds. -/
inductive HandlerResponse where
  | ok (body : JVal)
  | badRequest (error : String)
  | serverError (error : String)
deriving Repr

mutual

/-- Structural equality of JS values (SameValueZero on the primitives the
modelled code uses as `Map` keys). -/
def beqJVal : JVal → JVal → Bool
  | .str a, .str b => a == b
  | .num a, .num b => a == b
  | .bool a, .bool b => a == b
  | .null, .null => true
  | .undefined, .undefined => true
  | .arr es ps, .arr fs qs => beqJValList es fs && beqJValProps ps qs
  | .obj ps, .obj qs => beqJValProps ps qs
  | _, _ => false

def beqJValList : List JVal → List JVal → Bool
  | [], [] => true
  | x :: xs, y :: ys => beqJVal x y && beqJValList xs ys
  | _, _ => false

def beqJValProps : List (String × JVal) → List (String × JVal) → Bool
  | [], [] => true
  | (k, v) :: ps, (k2, v2) :: qs => k == k2 && beqJVal v v2 && beqJValProps ps qs
  | _, _ => false

end

/-- The epic-name → issue-key `Map`. -/
abbrev EpicMap : Type := List (JVal × String)

/-- `Map.prototype.set` (replace the value of an existing key, else append). -/
def mapSet (m : EpicMap) (k : JVal) (v : String) : EpicMap :=
  if (List.any m fun p => beqJVal p.1 k) then
    List.map (fun p => if beqJVal p.1 k then (p.1, v) else p) m
  else m ++ [(k, v)]

/-- `Map.prototype.get` (`undefined` → `none`). -/
def mapGet (m : EpicMap) (k : JVal) : Option String :=
  (List.find? (fun p => beqJVal p.1 k) m).map Prod.snd

/-- The default RAID skeleton injected when `parsed.docs.raid` is falsy. -/
def raidDefault : JVal :=
  .obj [("title", .str "RAID Log"), ("risks", .arr [] []), ("assumptions", .arr [] []),
        ("issues", .arr [] []), ("dependencies", .arr [] [])]

/-- `Array.isArray(v) ? v : []`. -/
def arrOrEmpty (v : JVal) : JVal := if isArray v then v else .arr [] []

/-- Lines 773-797 of the handler: backfill `meta`, normalize the three
documents, coerce the RAID structure. The source mutates `parsed` in place;
here the same writes are threaded explicitly. Property reads/writes on
`null`/`undefined` targets — where the source throws a `TypeError` that the
endpoint's `catch` turns into a 500 — become explicit `.error` branches. -/
def normalizeParsed (p0 : JVal) (projectName jiraProjectKey confluenceSpaceKey extracted : String) :
    Except String JVal :=
  let p1 := setProp p0 "meta" (jsOr (getProp p0 "meta") (.obj []))
  match getProp p1 "meta" with
  | .null => .error "Cannot set properties of null (setting projectName)"
  | .undefined => .error "Cannot set properties of undefined (setting projectName)"
  | meta0 =>
    let meta1 := setProp meta0 "projectName"
      (jsOr (getProp meta0 "projectName") (jsOr (.str projectName) (.str "Project")))
    let meta2 := setProp meta1 "jiraProjectKey"
      (jsOr (getProp meta1 "jiraProjectKey") (jsOr (.str jiraProjectKey) (.str "")))
    let meta3 := setProp meta2 "confluenceSpaceKey"
      (jsOr (getProp meta2 "confluenceSpaceKey") (jsOr (.str confluenceSpaceKey) (.str "")))
    let p2 := setProp p1 "meta" meta3
    let p3 := setProp p2 "docs" (jsOr (getProp p2 "docs") (.obj []))
    match getProp p3 "docs" with
    | .null => .error "Cannot set properties of null (setting brd)"
    | .undefined => .error "Cannot set properties of undefined (setting brd)"
    | docs0 =>
      let docs1 := setProp docs0 "brd" (ensureDocHasContent (getProp docs0 "brd") "BRD" extracted)
      let docs2 := setProp docs1 "frs" (ensureDocHasContent (getProp docs1 "frs") "FRS" extracted)
      let docs3 := setProp docs2 "sow" (ensureDocHasContent (getProp docs2 "sow") "SOW" extracted)
      let docs4 := setProp docs3 "raid" (jsOr (getProp docs3 "raid") raidDefault)
      match getProp docs4 "raid" with
      | .null => .error "Cannot set properties of null (setting title)"
      | .undefined => .error "Cannot set properties of undefined (setting title)"
      | raid0 =>
        let raid1 := setProp raid0 "title"
          (.str (jsOrStr (safeString (getProp raid0 "title")) "RAID Log"))
        let raid2 := setProp raid1 "risks" (arrOrEmpty (getProp raid1 "risks"))
        let raid3 := setProp raid2 "assumptions" (arrOrEmpty (getProp raid2 "assumptions"))
        let raid4 := setProp raid3 "issues" (arrOrEmpty (getProp raid3 "issues"))
        let raid5 := setProp raid4 "dependencies" (arrOrEmpty (getProp raid4 "dependencies"))
        let docs5 := setProp docs4 "raid" raid5
        .ok (setProp p3 "docs" docs5)

/-- The fields of one epic creation (`issuetype: Epic`, summary `e.name`,
description text `e.description || ""`). -/
def epicFields (jiraProjectKey : String) (labelArr : List String) (e : JVal) : IssueFields :=
  { projectKey := jiraProjectKey, issuetype := "Epic", summary := getProp e "name",
    descText := jsOr (getProp e "description") (.str ""), labels := labelArr }

/-- The epic-creation loop: one `jiraCreateIssue` per epic, in order, recording
`name → key` (last write wins) and the created keys; a failure aborts. A
`null`/`undefined` element throws on the `e.name` access before any call. -/
def runEpics (createIssue : IssueFields → Except String IssueRes)
    (jiraProjectKey : String) (labelArr : List String) :
    List JVal → EpicMap → List String → List Call
      → Except String (EpicMap × List String) × List Call
  | [], m, created, tr => (.ok (m, created), tr)
  | .null :: _, _, _, tr => (.error "Cannot read properties of null (reading name)", tr)
  | .undefined :: _, _, _, tr => (.error "Cannot read properties of undefined (reading name)", tr)
  | e :: rest, m, created, tr =>
    let fields := epicFields jiraProjectKey labelArr e
    match createIssue fields with
    | .error err => (.error err, tr ++ [.issueCreate fields])
    | .ok res =>
      runEpics createIssue jiraProjectKey labelArr rest
        (mapSet m (getProp e "name") res.key) (created ++ [res.key])
        (tr ++ [.issueCreate fields])

/-- `Array.prototype.join` as the code calls it on `s.acceptanceCriteria || []`
(a non-array truthy value has no `join` — a `TypeError`). -/
def jsJoin (v : JVal) (sep : String) : Except String String :=
  match v with
  | .arr es _ => .ok (jsJoinElems es sep)
  | _ => .error "join is not a function"

/-- The synthesized story description: story text, Acceptance Criteria bullet
list, and a back-link to the parent page when it has a web URL. -/
def storyDescText (s : JVal) (parentUrl : String) : Except String String :=
  match jsJoin (jsOr (getProp s "acceptanceCriteria") (.arr [] [])) "\n- " with
  | .error e => .error e
  | .ok ac =>
    .ok (jsToString (jsOr (getProp s "story") (.str "")) ++ "\n\n"
      ++ "Acceptance Criteria:\n- " ++ ac ++ "\n\n"
      ++ (if parentUrl != "" then "Docs: " ++ parentUrl else ""))

/-- The story-creation loop: resolve the epic key from the map, synthesize the
description, then the three-tier creation of §4.3; a failure aborts. -/
def runStories (createIssue : IssueFields → Except String IssueRes)
    (findEpicLink : Except String (Option String))
    (jiraProjectKey : String) (labelArr : List String) (parentUrl : String) (m : EpicMap) :
    List JVal → List String → List Call → Except String (List String) × List Call
  | [], created, tr => (.ok created, tr)
  | .null :: _, _, tr => (.error "Cannot read properties of null (reading epicName)", tr)
  | .undefined :: _, _, tr => (.error "Cannot read properties of undefined (reading epicName)", tr)
  | s :: rest, created, tr =>
    let epicKey := mapGet m (getProp s "epicName")
    match storyDescText s parentUrl with
    | .error e => (.error e, tr)
    | .ok descText =>
      let resAttempts := jiraCreateStoryWithEpic createIssue findEpicLink jiraProjectKey
        epicKey (getProp s "summary") descText labelArr
      match resAttempts.1 with
      | .error e => (.error e, tr ++ resAttempts.2.map Call.issueCreate)
      | .ok c =>
        runStories createIssue findEpicLink jiraProjectKey labelArr parentUrl m rest
          (created ++ [c.key]) (tr ++ resAttempts.2.map Call.issueCreate)

/-- `for (const e of v)`: arrays iterate their elements, strings their
characters, any other truthy value throws. (The source applies `|| []` before
iterating, so falsy values never reach the loop header.) -/
def jsIterate (v : JVal) : Except String (List JVal) :=
  match v with
  | .arr es _ => .ok es
  | .str s => .ok (s.data.map fun c => .str ⟨[c]⟩)
  | _ => .error "is not iterable"

/-- `${ATLASSIAN_SITE}/wiki${page._links.webui}` or `""`. -/
def pageUrlOf (site : String) (p : PageRes) : String :=
  if p.webui != "" then site ++ "/wiki" ++ p.webui else ""

/-- `(labels || "").split(",").map(trim).filter(Boolean)`. -/
def labelArrOf (labels : String) : List String :=
  ((labels.splitOn ",").map jsTrim).filter (fun x => x != "")

/-- `parsed?.meta?.projectName || "Project"`, stringified for the titles. -/
def docPackBaseName (parsed : JVal) : String :=
  jsToString (jsOr (getProp (getProp parsed "meta") "projectName") (.str "Project"))

/-- The parent page's fixed HTML body. -/
def parentPageHtml : String :=
  "<p><strong>Auto-generated by PM Doc Generator.</strong></p>\n<p>Includes BRD, FRS, SOW, RAID and a Jira backlog.</p>"

/-- The space-not-found message (names the space key). -/
def spaceNotFoundMsg (spaceKey : String) : String :=
  "Confluence space not found or no permission for spaceKey=\"" ++ spaceKey
    ++ "\". Tip: Your personal space key usually looks like \"~<accountId...>\" (example from diagnose)."

/-- Lines 804-926 of the handler: the publish flow. Space pre-flight, parent
page, four document pages parented to it, epics, then stories; the first
failure aborts the rest and surfaces as a 500 (the endpoint's `catch`). -/
def publishFlow (env : Env) (req : Req) (parsed : JVal) (tr0 : List Call) :
    HandlerResponse × List Call :=
  let labelArr := labelArrOf req.labels
  let space := env.getSpace req.confluenceSpaceKey
  let tr := tr0 ++ [.spaceLookup req.confluenceSpaceKey]
  if !truthy space then
    (.badRequest (spaceNotFoundMsg req.confluenceSpaceKey), tr)
  else
    let baseName := docPackBaseName parsed
    let parentTitle := env.uniq ("PM Doc Pack – " ++ baseName)
    let tr := tr ++ [.pageCreate req.confluenceSpaceKey parentTitle parentPageHtml none]
    match env.createPage req.confluenceSpaceKey parentTitle parentPageHtml none with
    | .error e => (.serverError e, tr)
    | .ok parent =>
      let parentUrl := pageUrlOf env.site parent
      let brdTitle := env.uniq ("BRD – " ++ baseName)
      let brdHtml := docToConfluenceHtml (getProp (getProp parsed "docs") "brd")
      let tr := tr ++ [.pageCreate req.confluenceSpaceKey brdTitle brdHtml (some parent.id)]
      match env.createPage req.confluenceSpaceKey brdTitle brdHtml (some parent.id) with
      | .error e => (.serverError e, tr)
      | .ok brd =>
        let frsTitle := env.uniq ("FRS – " ++ baseName)
        let frsHtml := docToConfluenceHtml (getProp (getProp parsed "docs") "frs")
        let tr := tr ++ [.pageCreate req.confluenceSpaceKey frsTitle frsHtml (some parent.id)]
        match env.createPage req.confluenceSpaceKey frsTitle frsHtml (some parent.id) with
        | .error e => (.serverError e, tr)
        | .ok frs =>
          let sowTitle := env.uniq ("SOW – " ++ baseName)
          let sowHtml := docToConfluenceHtml (getProp (getProp parsed "docs") "sow")
          let tr := tr ++ [.pageCreate req.confluenceSpaceKey sowTitle sowHtml (some parent.id)]
          match env.createPage req.confluenceSpaceKey sowTitle sowHtml (some parent.id) with
          | .error e => (.serverError e, tr)
          | .ok sow =>
            let raidTitle := env.uniq ("RAID – " ++ baseName)
            let raidHtml := raidToConfluenceHtml (getProp (getProp parsed "docs") "raid")
            let tr := tr ++ [.pageCreate req.confluenceSpaceKey raidTitle raidHtml (some parent.id)]
            match env.createPage req.confluenceSpaceKey raidTitle raidHtml (some parent.id) with
            | .error e => (.serverError e, tr)
            | .ok raid =>
              match jsIterate (jsOr (getProp (getProp parsed "backlog") "epics") (.arr [] [])) with
              | .error e => (.serverError e, tr)
              | .ok epicList =>
                match runEpics env.createIssue req.jiraProjectKey labelArr epicList [] [] tr with
                | (.error e, tr) => (.serverError e, tr)
                | (.ok (m, createdEpics), tr) =>
                  match jsIterate (jsOr (getProp (getProp parsed "backlog") "stories") (.arr [] [])) with
                  | .error e => (.serverError e, tr)
                  | .ok storyList =>
                    match runStories env.createIssue env.findEpicLink req.jiraProjectKey
                        labelArr parentUrl m storyList [] tr with
                    | (.error e, tr) => (.serverError e, tr)
                    | (.ok createdStories, tr) =>
                      (.ok (.obj [("runId", .str env.runId), ("output", parsed),
                        ("published", .obj [
                          ("confluence", .obj [
                            ("parent", .str parentUrl),
                            ("brd", .str (pageUrlOf env.site brd)),
                            ("frs", .str (pageUrlOf env.site frs)),
                            ("sow", .str (pageUrlOf env.site sow)),
                            ("raid", .str (pageUrlOf env.site raid))]),
                          ("jira", .obj [
                            ("epics", .arr (createdEpics.map JVal.str) []),
                            ("stories", .arr (createdStories.map JVal.str) [])])])]), tr)

/-- The combined requirements text: pasted text plus the `[FILE_CONTENT]`
block when a file was uploaded. -/
def reqExtracted (req : Req) : String :=
  req.requirementsText ++ (match req.fileContent with
    | some c => "\n\n[FILE_CONTENT]\n" ++ c
    | none => "")

/-- `completion...content || "{}"`. -/
def rawOrEmptyObj (content : String) : String :=
  if content == "" then "\x7b\x7d" else content

/-- The parsed completion: `JSON.parse(raw)`, or the error marker object on a
parse failure. -/
def parseOutcome (parseJson : String → Option JVal) (content : String) : JVal :=
  match parseJson (rawOrEmptyObj content) with
  | some v => v
  | none => .obj [("error", .str "JSON parse failed"), ("raw", .str (rawOrEmptyObj content))]

/-- The `/fully-automate` handler (src/server.js l.675-933): configuration and
publish validations, input extraction, the LLM call, parse with local
recovery, normalization, then preview return or publish flow. Thrown errors
become `serverError` (the endpoint's `catch`); the second component is the
trace of downstream calls. -/
def fullyAutomate (env : Env) (req : Req) : HandlerResponse × List Call :=
  if !env.openaiConfigured then
    (.serverError "AI is not configured on the server. Please set OPENAI_API_KEY.", [])
  else if req.publish && req.jiraProjectKey == "" then
    (.badRequest "publish=true requires jiraProjectKey", [])
  else if req.publish && req.confluenceSpaceKey == "" then
    (.badRequest "publish=true requires confluenceSpaceKey", [])
  else
    let extracted := reqExtracted req
    let prompt := promptFor extracted
    match env.llm prompt with
    | .error e => (.serverError e, [.llm prompt])
    | .ok content =>
      match normalizeParsed (parseOutcome env.parseJson content)
          req.projectName req.jiraProjectKey req.confluenceSpaceKey extracted with
      | .error e => (.serverError e, [.llm prompt])
      | .ok parsed =>
        if !req.publish then
          (.ok (.obj [("runId", .str env.runId), ("output", parsed)]), [.llm prompt])
        else
          publishFlow env req parsed [.llm prompt]

theorem normalizeParsed_parse_failure (raw pn jk ck ext : String) :
    ∃ out, normalizeParsed (.obj [("error", .str "JSON parse failed"), ("raw", .str raw)])
        pn jk ck ext = .ok out ∧
      getProp out "error" = .str "JSON parse failed" ∧
      getProp (getProp out "docs") "brd" = ensureDocHasContent .undefined "BRD" ext ∧
      getProp (getProp out "docs") "frs" = ensureDocHasContent .undefined "FRS" ext ∧
      getProp (getProp out "docs") "sow" = ensureDocHasContent .undefined "SOW" ext := by
  refine ⟨_, rfl, rfl, ?_, ?_, ?_⟩ <;> rfl

/-- C5 (confirmed). When the completion's text fails to parse as JSON, the
`publish=false` run still answers 200 (`ok`): the failure is recorded under
the `error` key of the output, and the three documents are the normalized
fallbacks produced from an absent doc — the parse failure never becomes a
500. The only downstream call made is the completion itself. -/
theorem claim5_parse_failure_recovered (env : Env) (req : Req) (content : String)
    (hconf : env.openaiConfigured = true) (hpub : req.publish = false)
    (hllm : env.llm (promptFor (reqExtracted req)) = .ok content)
    (hparse : env.parseJson (rawOrEmptyObj content) = none) :
    ∃ out, fullyAutomate env req
        = (.ok (.obj [("runId", .str env.runId), ("output", out)]),
           [.llm (promptFor (reqExtracted req))]) ∧
      getProp out "error" = .str "JSON parse failed" ∧
      getProp (getProp out "docs") "brd" = ensureDocHasContent .undefined "BRD" (reqExtracted req) ∧
      getProp (getProp out "docs") "frs" = ensureDocHasContent .undefined "FRS" (reqExtracted req) ∧
      getProp (getProp out "docs") "sow" = ensureDocHasContent .undefined "SOW" (reqExtracted req) := by
  obtain ⟨out, hnp, herr, hbrd, hfrs, hsow⟩ :=
    normalizeParsed_parse_failure (rawOrEmptyObj content)
      req.projectName req.jiraProjectKey req.confluenceSpaceKey (reqExtracted req)
  refine ⟨out, ?_, herr, hbrd, hfrs, hsow⟩
  unfold fullyAutomate
  rw [hconf, hpub]
  simp only [Bool.not_true, Bool.false_and, Bool.false_eq_true, if_false]
  rw [hllm]
  have hpo : parseOutcome env.parseJson content
      = .obj [("error", .str "JSON parse failed"), ("raw", .str (rawOrEmptyObj content))] := by
    unfold parseOutcome
    rw [hparse]
  simp only [hpo, hnp]
  simp

/-- Witness for C5 at concrete inputs: a completion of `"not json"` with a
parser that rejects it. -/
theorem claim5_parse_failure_recovered_witness :
    ∃ out,
      fullyAutomate
        { openaiConfigured := true, llm := fun _ => .ok "not json",
          parseJson := fun _ => none, site := "https://x.atlassian.net",
          getSpace := fun _ => .null, createPage := fun _ _ _ _ => .error "unused",
          createIssue := fun _ => .error "unused", findEpicLink := .ok none,
          uniq := fun b => b, runId := "1" }
        { publish := false, requirementsText := "Build a login page", projectName := "P",
          jiraProjectKey := "", confluenceSpaceKey := "", labels := "",
          fileContent := none }
        = (.ok (.obj [("runId", .str "1"), ("output", out)]),
           [.llm (promptFor (reqExtracted
              { publish := false, requirementsText := "Build a login page", projectName := "P",
                jiraProjectKey := "", confluenceSpaceKey := "", labels := "",
                fileContent := none }))]) ∧
      getProp out "error" = .str "JSON parse failed" ∧
      getProp (getProp out "docs") "brd"
        = ensureDocHasContent .undefined "BRD" (reqExtracted
            { publish := false, requirementsText := "Build a login page", projectName := "P",
              jiraProjectKey := "", confluenceSpaceKey := "", labels := "",
              fileContent := none }) ∧
      getProp (getProp out "docs") "frs"
        = ensureDocHasContent .undefined "FRS" (reqExtracted
            { publish := false, requirementsText := "Build a login page", projectName := "P",
              jiraProjectKey := "", confluenceSpaceKey := "", labels := "",
              fileContent := none }) ∧
      getProp (getProp out "docs") "sow"
        = ensureDocHasContent .undefined "SOW" (reqExtracted
            { publish := false, requirementsText := "Build a login page", projectName := "P",
              jiraProjectKey := "", confluenceSpaceKey := "", labels := "",
              fileContent := none }) :=
  claim5_parse_failure_recovered _ _ "not json" rfl rfl rfl rfl

/-- C7 (confirmed). With `publish=true` and valid keys, when the space lookup
reports the space absent (`null`), the handler answers with the 400-class
error naming the space key, and the call trace holds no page creation and no
issue creation — only the completion call and the space lookup. -/
theorem claim7_space_absent (env : Env) (req : Req) (content : String) (parsed : JVal)
    (hconf : env.openaiConfigured = true) (hpub : req.publish = true)
    (hjk : req.jiraProjectKey ≠ "") (hck : req.confluenceSpaceKey ≠ "")
    (hllm : env.llm (promptFor (reqExtracted req)) = .ok content)
    (hnorm : normalizeParsed (parseOutcome env.parseJson content)
        req.projectName req.jiraProjectKey req.confluenceSpaceKey (reqExtracted req)
        = .ok parsed)
    (hspace : env.getSpace req.confluenceSpaceKey = .null) :
    fullyAutomate env req
      = (.badRequest (spaceNotFoundMsg req.confluenceSpaceKey),
         [.llm (promptFor (reqExtracted req)), .spaceLookup req.confluenceSpaceKey]) ∧
    ∀ c ∈ (fullyAutomate env req).2,
      (∀ sk t h pid, c ≠ .pageCreate sk t h pid) ∧ (∀ f, c ≠ .issueCreate f) := by
  have h1 : (req.jiraProjectKey == "") = false := by
    simp [hjk]
  have h2 : (req.confluenceSpaceKey == "") = false := by
    simp [hck]
  have hmain : fullyAutomate env req
      = (.badRequest (spaceNotFoundMsg req.confluenceSpaceKey),
         [.llm (promptFor (reqExtracted req)), .spaceLookup req.confluenceSpaceKey]) := by
    unfold fullyAutomate
    rw [hconf, hpub]
    simp only [Bool.not_true, Bool.false_eq_true, if_false, h1, h2, Bool.true_and]
    rw [hllm]
    simp only [hnorm]
    unfold publishFlow
    rw [hspace]
    simp [truthy]
  refine ⟨hmain, ?_⟩
  rw [hmain]
  intro c hc
  simp only [List.mem_cons, List.not_mem_nil, or_false] at hc
  rcases hc with h | h <;> subst h <;>
    exact ⟨fun sk t h pid => by simp, fun f => by simp⟩

/-- Witness for C7 at concrete inputs. -/
theorem claim7_space_absent_witness :
    fullyAutomate
        { openaiConfigured := true, llm := fun _ => .ok "",
          parseJson := fun _ => some (.obj []), site := "https://x.atlassian.net",
          getSpace := fun _ => .null, createPage := fun _ _ _ _ => .error "unused",
          createIssue := fun _ => .error "unused", findEpicLink := .ok none,
          uniq := fun b => b, runId := "1" }
        { publish := true, requirementsText := "reqs", projectName := "P",
          jiraProjectKey := "PM", confluenceSpaceKey := "TEST", labels := "",
          fileContent := none }
      = (.badRequest (spaceNotFoundMsg "TEST"),
         [.llm (promptFor (reqExtracted
            { publish := true, requirementsText := "reqs", projectName := "P",
              jiraProjectKey := "PM", confluenceSpaceKey := "TEST", labels := "",
              fileContent := none })),
          .spaceLookup "TEST"]) := by
  obtain ⟨parsed, hparsed⟩ :
      ∃ p, normalizeParsed (parseOutcome (fun _ => some (.obj [])) "") "P" "PM" "TEST"
        (reqExtracted
          { publish := true, requirementsText := "reqs", projectName := "P",
            jiraProjectKey := "PM", confluenceSpaceKey := "TEST", labels := "",
            fileContent := none }) = .ok p := ⟨_, rfl⟩
  exact (claim7_space_absent
      { openaiConfigured := true, llm := fun _ => .ok "",
        parseJson := fun _ => some (.obj []), site := "https://x.atlassian.net",
        getSpace := fun _ => .null, createPage := fun _ _ _ _ => .error "unused",
        createIssue := fun _ => .error "unused", findEpicLink := .ok none,
        uniq := fun b => b, runId := "1" }
      { publish := true, requirementsText := "reqs", projectName := "P",
        jiraProjectKey := "PM", confluenceSpaceKey := "TEST", labels := "",
        fileContent := none }
      "" parsed rfl rfl (by decide) (by decide) rfl hparsed rfl).1

theorem runEpics_cons_eq (ci : IssueFields → Except String IssueRes) (pk : String)
    (la : List String) (e : JVal) (he1 : e ≠ .null) (he2 : e ≠ .undefined)
    (rest : List JVal) (m : EpicMap) (cr : List String) (tr : List Call) :
    runEpics ci pk la (e :: rest) m cr tr
      = match ci (epicFields pk la e) with
        | .error err => (.error err, tr ++ [.issueCreate (epicFields pk la e)])
        | .ok res => runEpics ci pk la rest (mapSet m (getProp e "name") res.key)
            (cr ++ [res.key]) (tr ++ [.issueCreate (epicFields pk la e)]) := by
  cases e
  case null => exact absurd rfl he1
  case undefined => exact absurd rfl he2
  all_goals rfl

theorem runEpics_trace_prefix (ci : IssueFields → Except String IssueRes) (pk : String)
    (la : List String) (es : List JVal) (m : EpicMap) (cr : List String) (tr : List Call) :
    ∃ ex, (runEpics ci pk la es m cr tr).2 = tr ++ ex := by
  induction es generalizing m cr tr with
  | nil => exact ⟨[], by simp [runEpics]⟩
  | cons e rest ih =>
    by_cases he1 : e = .null
    · subst he1
      exact ⟨[], by simp [runEpics]⟩
    by_cases he2 : e = .undefined
    · subst he2
      exact ⟨[], by simp [runEpics]⟩
    rw [runEpics_cons_eq ci pk la e he1 he2]
    cases hci : ci (epicFields pk la e) with
    | error err => exact ⟨[.issueCreate (epicFields pk la e)], rfl⟩
    | ok res =>
      obtain ⟨ex, hex⟩ := ih (mapSet m (getProp e "name") res.key) (cr ++ [res.key])
        (tr ++ [.issueCreate (epicFields pk la e)])
      exact ⟨[.issueCreate (epicFields pk la e)] ++ ex, by
        simp only [hex, List.append_assoc]⟩

theorem runStories_cons_err (ci : IssueFields → Except String IssueRes)
    (fl : Except String (Option String)) (pk : String) (la : List String)
    (purl : String) (m : EpicMap) (s : JVal) (hs1 : s ≠ .null) (hs2 : s ≠ .undefined)
    (rest : List JVal) (cr : List String) (tr : List Call) (e : String)
    (hsd : storyDescText s purl = .error e) :
    runStories ci fl pk la purl m (s :: rest) cr tr = (.error e, tr) := by
  cases s
  case null => exact absurd rfl hs1
  case undefined => exact absurd rfl hs2
  all_goals simp only [runStories, hsd]

theorem runStories_cons_ok (ci : IssueFields → Except String IssueRes)
    (fl : Except String (Option String)) (pk : String) (la : List String)
    (purl : String) (m : EpicMap) (s : JVal) (hs1 : s ≠ .null) (hs2 : s ≠ .undefined)
    (rest : List JVal) (cr : List String) (tr : List Call) (descText : String)
    (hsd : storyDescText s purl = .ok descText) :
    runStories ci fl pk la purl m (s :: rest) cr tr
      = match (jiraCreateStoryWithEpic ci fl pk (mapGet m (getProp s "epicName"))
            (getProp s "summary") descText la).1 with
        | .error e => (.error e, tr ++ (jiraCreateStoryWithEpic ci fl pk
            (mapGet m (getProp s "epicName")) (getProp s "summary") descText la).2.map
              Call.issueCreate)
        | .ok c => runStories ci fl pk la purl m rest (cr ++ [c.key])
            (tr ++ (jiraCreateStoryWithEpic ci fl pk (mapGet m (getProp s "epicName"))
              (getProp s "summary") descText la).2.map Call.issueCreate) := by
  cases s
  case null => exact absurd rfl hs1
  case undefined => exact absurd rfl hs2
  all_goals simp only [runStories, hsd]

theorem runStories_trace_prefix (ci : IssueFields → Except String IssueRes)
    (fl : Except String (Option String)) (pk : String) (la : List String)
    (purl : String) (m : EpicMap) (ss : List JVal) (cr : List String) (tr : List Call) :
    ∃ ex, (runStories ci fl pk la purl m ss cr tr).2 = tr ++ ex := by
  induction ss generalizing cr tr with
  | nil => exact ⟨[], by simp [runStories]⟩
  | cons s rest ih =>
    by_cases hs1 : s = .null
    · subst hs1
      exact ⟨[], by simp [runStories]⟩
    by_cases hs2 : s = .undefined
    · subst hs2
      exact ⟨[], by simp [runStories]⟩
    cases hsd : storyDescText s purl with
    | error e =>
      rw [runStories_cons_err ci fl pk la purl m s hs1 hs2 rest cr tr e hsd]
      exact ⟨[], by simp⟩
    | ok descText =>
      rw [runStories_cons_ok ci fl pk la purl m s hs1 hs2 rest cr tr descText hsd]
      cases hres : (jiraCreateStoryWithEpic ci fl pk (mapGet m (getProp s "epicName"))
          (getProp s "summary") descText la).1 with
      | error e =>
        exact ⟨(jiraCreateStoryWithEpic ci fl pk (mapGet m (getProp s "epicName"))
          (getProp s "summary") descText la).2.map Call.issueCreate, rfl⟩
      | ok c =>
        obtain ⟨ex, hex⟩ := ih (cr ++ [c.key])
          (tr ++ (jiraCreateStoryWithEpic ci fl pk (mapGet m (getProp s "epicName"))
            (getProp s "summary") descText la).2.map Call.issueCreate)
        exact ⟨(jiraCreateStoryWithEpic ci fl pk (mapGet m (getProp s "epicName"))
            (getProp s "summary") descText la).2.map Call.issueCreate ++ ex, by
          rw [hex, List.append_assoc]⟩

set_option maxHeartbeats 1000000 in
theorem publishFlow_trace_prefix (env : Env) (req : Req) (parsed : JVal) (tr0 : List Call) :
    ∃ ex, (publishFlow env req parsed tr0).2 = tr0 ++ ex := by
  simp only [publishFlow]
  split
  · exact ⟨_, rfl⟩
  · split
    · exact ⟨_, by simp only [List.append_assoc]; rfl⟩
    · split
      · exact ⟨_, by simp only [List.append_assoc]; rfl⟩
      · split
        · exact ⟨_, by simp only [List.append_assoc]; rfl⟩
        · split
          · exact ⟨_, by simp only [List.append_assoc]; rfl⟩
          · split
            · exact ⟨_, by simp only [List.append_assoc]; rfl⟩
            · split
              · exact ⟨_, by simp only [List.append_assoc]; rfl⟩
              · split
                · rename_i e1 tr1 heq
                  obtain ⟨ex, hex⟩ := runEpics_trace_prefix env.createIssue req.jiraProjectKey
                    _ _ [] [] _
                  rw [heq] at hex
                  exact ⟨_, hex.trans (by simp only [List.append_assoc]; rfl)⟩
                · rename_i m1 createdEpics tr1 heq
                  obtain ⟨ex, hex⟩ := runEpics_trace_prefix env.createIssue req.jiraProjectKey
                    _ _ [] [] _
                  rw [heq] at hex
                  split
                  · exact ⟨_, hex.trans (by simp only [List.append_assoc]; rfl)⟩
                  · rename_i storyList heqSt
                    split
                    · rename_i e2 tr2 heq2
                      obtain ⟨ex2, hex2⟩ := runStories_trace_prefix env.createIssue
                        env.findEpicLink req.jiraProjectKey _ _ m1 _ [] _
                      rw [heq2] at hex2
                      exact ⟨_, hex2.trans ((congrArg (fun l => l ++ ex2) hex).trans
                        (by simp only [List.append_assoc]; rfl))⟩
                    · rename_i createdStories tr2 heq2
                      obtain ⟨ex2, hex2⟩ := runStories_trace_prefix env.createIssue
                        env.findEpicLink req.jiraProjectKey _ _ m1 _ [] _
                      rw [heq2] at hex2
                      exact ⟨_, hex2.trans ((congrArg (fun l => l ++ ex2) hex).trans
                        (by simp only [List.append_assoc]; rfl))⟩

/-- C9 (corrected). The handler never validates the combined requirements
text: with an empty `requirementsText` and no uploaded file, the request is
NOT rejected — once past the only fail-fast checks (AI configured;
`publish=true` requires the two keys), the LLM completion call is always
attempted, with the empty requirements interpolated into the prompt. -/
theorem claim9_no_requirements_validation (env : Env) (req : Req)
    (hconf : env.openaiConfigured = true)
    (hreq : req.requirementsText = "") (hfile : req.fileContent = none)
    (hval : req.publish = false ∨ (req.jiraProjectKey ≠ "" ∧ req.confluenceSpaceKey ≠ "")) :
    ∃ rest, (fullyAutomate env req).2 = .llm (promptFor "") :: rest := by
  have hex : reqExtracted req = "" := by
    simp [reqExtracted, hreq, hfile]
  have h1 : (req.publish && req.jiraProjectKey == "") = false := by
    rcases hval with h | ⟨h, _⟩
    · simp [h]
    · simp [h]
  have h2 : (req.publish && req.confluenceSpaceKey == "") = false := by
    rcases hval with h | ⟨_, h⟩
    · simp [h]
    · simp [h]
  simp only [fullyAutomate, hconf, Bool.not_true, Bool.false_eq_true, if_false, h1, h2, hex]
  split
  · exact ⟨[], rfl⟩
  · split
    · exact ⟨[], rfl⟩
    · split
      · exact ⟨[], rfl⟩
      · obtain ⟨ex, hexx⟩ := publishFlow_trace_prefix env req _ [.llm (promptFor "")]
        exact ⟨ex, by rw [hexx]; rfl⟩

/-- Witness for C9 at a concrete input (empty requirements, preview mode). -/
theorem claim9_no_requirements_validation_witness :
    ∃ rest,
      (fullyAutomate
        { openaiConfigured := true, llm := fun _ => .ok "\x7b\x7d",
          parseJson := fun _ => some (.obj []), site := "s",
          getSpace := fun _ => .null, createPage := fun _ _ _ _ => .error "x",
          createIssue := fun _ => .error "x", findEpicLink := .ok none,
          uniq := fun b => b, runId := "7" }
        { publish := false, requirementsText := "", projectName := "P",
          jiraProjectKey := "", confluenceSpaceKey := "", labels := "",
          fileContent := none }).2 = .llm (promptFor "") :: rest :=
  claim9_no_requirements_validation _ _ rfl rfl rfl (Or.inl rfl)

/-- C9 counterexample: a `/fully-automate` request with an empty combined
requirements text (no pasted text, no file). The claim requires a fail-fast
400-class outcome with no downstream call; the handler instead answers 200
(`ok`) after making the LLM call. -/
theorem claim9_cex :
    ∃ body,
      fullyAutomate
        { openaiConfigured := true, llm := fun _ => .ok "\x7b\x7d",
          parseJson := fun _ => some (.obj []), site := "s",
          getSpace := fun _ => .null, createPage := fun _ _ _ _ => .error "x",
          createIssue := fun _ => .error "x", findEpicLink := .ok none,
          uniq := fun b => b, runId := "1" }
        { publish := false, requirementsText := "", projectName := "",
          jiraProjectKey := "", confluenceSpaceKey := "", labels := "",
          fileContent := none }
        = (.ok body, [.llm (promptFor "")]) :=
  ⟨_, rfl⟩

/-- The epic-name → key map after creating all epics with a total tracker. -/
def buildEpicMap (ires : IssueFields → IssueRes) (pk : String) (la : List String) :
    List JVal → EpicMap → EpicMap
  | [], m => m
  | e :: rest, m =>
    buildEpicMap ires pk la rest (mapSet m (getProp e "name") (ires (epicFields pk la e)).key)

theorem runEpics_success (ires : IssueFields → IssueRes) (pk : String) (la : List String)
    (es : List JVal) (hes : ∀ e ∈ es, e ≠ .null ∧ e ≠ .undefined)
    (m : EpicMap) (cr : List String) (tr : List Call) :
    runEpics (fun f => .ok (ires f)) pk la es m cr tr
      = (.ok (buildEpicMap ires pk la es m,
              cr ++ es.map fun e => (ires (epicFields pk la e)).key),
         tr ++ es.map fun e => .issueCreate (epicFields pk la e)) := by
  induction es generalizing m cr tr with
  | nil => simp [runEpics, buildEpicMap]
  | cons e rest ih =>
    obtain ⟨he1, he2⟩ := hes e (List.mem_cons_self e rest)
    rw [runEpics_cons_eq _ pk la e he1 he2]
    simp only []
    rw [ih (fun x hx => hes x (List.mem_cons_of_mem e hx))]
    simp [buildEpicMap, List.append_assoc]

/-- The story description when `acceptanceCriteria` is an array (or absent). -/
def storyDescOkText (s : JVal) (purl : String) : String :=
  jsToString (jsOr (getProp s "story") (.str "")) ++ "\n\n"
    ++ "Acceptance Criteria:\n- "
    ++ jsJoinElems (asElems (jsOr (getProp s "acceptanceCriteria") (.arr [] []))) "\n- "
    ++ "\n\n" ++ (if purl != "" then "Docs: " ++ purl else "")

theorem storyDescText_ok (s : JVal) (purl : String)
    (hac : isArray (jsOr (getProp s "acceptanceCriteria") (.arr [] [])) = true) :
    storyDescText s purl = .ok (storyDescOkText s purl) := by
  unfold storyDescText storyDescOkText jsJoin
  cases hv : jsOr (getProp s "acceptanceCriteria") (.arr [] []) with
  | arr es ps => simp [asElems]
  | str v => rw [hv] at hac; simp [isArray] at hac
  | num v => rw [hv] at hac; simp [isArray] at hac
  | bool v => rw [hv] at hac; simp [isArray] at hac
  | null => rw [hv] at hac; simp [isArray] at hac
  | undefined => rw [hv] at hac; simp [isArray] at hac
  | obj ps => rw [hv] at hac; simp [isArray] at hac

/-- The single creation attempt a story makes when the tracker accepts
everything: tier 1 (direct parent) when an epic key resolved, else the
unlinked base fields. -/
def storyAttempt (pk : String) (summary : JVal) (d : String) (la : List String) :
    Option String → IssueFields
  | some k => { storyFields pk summary d la with parentKey := some k }
  | none => storyFields pk summary d la

theorem jiraCreateStoryWithEpic_success (ires : IssueFields → IssueRes)
    (fl : Except String (Option String)) (pk : String) (k? : Option String)
    (summary : JVal) (d : String) (la : List String) :
    jiraCreateStoryWithEpic (fun f => .ok (ires f)) fl pk k? summary d la
      = (.ok (ires (storyAttempt pk summary d la k?)), [storyAttempt pk summary d la k?]) := by
  cases k? <;> simp [jiraCreateStoryWithEpic, storyAttempt]

/-- The fields of the one call a story makes on the all-success path. -/
def expectedStoryFields (pk : String) (la : List String) (purl : String) (m : EpicMap)
    (s : JVal) : IssueFields :=
  storyAttempt pk (getProp s "summary") (storyDescOkText s purl) la
    (mapGet m (getProp s "epicName"))

theorem runStories_success (ires : IssueFields → IssueRes)
    (fl : Except String (Option String)) (pk : String) (la : List String)
    (purl : String) (m : EpicMap) (ss : List JVal)
    (hss : ∀ s ∈ ss, (s ≠ .null ∧ s ≠ .undefined)
        ∧ isArray (jsOr (getProp s "acceptanceCriteria") (.arr [] [])) = true)
    (cr : List String) (tr : List Call) :
    runStories (fun f => .ok (ires f)) fl pk la purl m ss cr tr
      = (.ok (cr ++ ss.map fun s => (ires (expectedStoryFields pk la purl m s)).key),
         tr ++ ss.map fun s => .issueCreate (expectedStoryFields pk la purl m s)) := by
  induction ss generalizing cr tr with
  | nil => simp [runStories]
  | cons s rest ih =>
    obtain ⟨⟨hs1, hs2⟩, hac⟩ := hss s (List.mem_cons_self s rest)
    rw [runStories_cons_ok _ fl pk la purl m s hs1 hs2 rest cr tr
      (storyDescOkText s purl) (storyDescText_ok s purl hac)]
    rw [jiraCreateStoryWithEpic_success]
    simp only []
    rw [ih (fun x hx => hss x (List.mem_cons_of_mem s hx))]
    simp [expectedStoryFields, List.append_assoc]

/-- The five page-creation calls of a successful publish: the parent "doc
pack" page first, then BRD, FRS, SOW and RAID, each parented to it. -/
def pagesTrace (uniq : String → String)
    (pres : String → String → String → Option String → PageRes)
    (ck : String) (parsed : JVal) : List Call :=
  let baseName := docPackBaseName parsed
  let parentTitle := uniq ("PM Doc Pack – " ++ baseName)
  let parentId := (pres ck parentTitle parentPageHtml none).id
  [.pageCreate ck parentTitle parentPageHtml none,
   .pageCreate ck (uniq ("BRD – " ++ baseName))
     (docToConfluenceHtml (getProp (getProp parsed "docs") "brd")) (some parentId),
   .pageCreate ck (uniq ("FRS – " ++ baseName))
     (docToConfluenceHtml (getProp (getProp parsed "docs") "frs")) (some parentId),
   .pageCreate ck (uniq ("SOW – " ++ baseName))
     (docToConfluenceHtml (getProp (getProp parsed "docs") "sow")) (some parentId),
   .pageCreate ck (uniq ("RAID – " ++ baseName))
     (raidToConfluenceHtml (getProp (getProp parsed "docs") "raid")) (some parentId)]

/-- The response body of a fully successful publish run. -/
def expectedPublishBody (env : Env) (req : Req) (parsed : JVal)
    (pres : String → String → String → Option String → PageRes)
    (ires : IssueFields → IssueRes) (es ss : List JVal) : JVal :=
  let baseName := docPackBaseName parsed
  let parent := pres req.confluenceSpaceKey (env.uniq ("PM Doc Pack – " ++ baseName))
    parentPageHtml none
  let purl := pageUrlOf env.site parent
  let la := labelArrOf req.labels
  let m := buildEpicMap ires req.jiraProjectKey la es []
  .obj [("runId", .str env.runId), ("output", parsed),
    ("published", .obj [
      ("confluence", .obj [
        ("parent", .str purl),
        ("brd", .str (pageUrlOf env.site (pres req.confluenceSpaceKey
          (env.uniq ("BRD – " ++ baseName))
          (docToConfluenceHtml (getProp (getProp parsed "docs") "brd")) (some parent.id)))),
        ("frs", .str (pageUrlOf env.site (pres req.confluenceSpaceKey
          (env.uniq ("FRS – " ++ baseName))
          (docToConfluenceHtml (getProp (getProp parsed "docs") "frs")) (some parent.id)))),
        ("sow", .str (pageUrlOf env.site (pres req.confluenceSpaceKey
          (env.uniq ("SOW – " ++ baseName))
          (docToConfluenceHtml (getProp (getProp parsed "docs") "sow")) (some parent.id)))),
        ("raid", .str (pageUrlOf env.site (pres req.confluenceSpaceKey
          (env.uniq ("RAID – " ++ baseName))
          (raidToConfluenceHtml (getProp (getProp parsed "docs") "raid")) (some parent.id))))]),
      ("jira", .obj [
        ("epics", .arr ((es.map fun e =>
          JVal.str (ires (epicFields req.jiraProjectKey la e)).key)) []),
        ("stories", .arr ((ss.map fun s =>
          JVal.str (ires (expectedStoryFields req.jiraProjectKey la purl m s)).key)) [])])])]

/-- C8 (confirmed). On a publish run where the space exists and every
downstream call succeeds, with `es` the epics and `ss` the stories of the
model output, the handler makes exactly, in order: the LLM call, the space
lookup, 5 page creations (parent first, then BRD, FRS, SOW, RAID, the four
documents parented to the parent page), then one Epic creation per element of
`es` in order, then one Story creation per element of `ss` in order — and
answers 200. -/
theorem claim8_publish_order (env : Env) (req : Req) (content : String) (parsed : JVal)
    (pres : String → String → String → Option String → PageRes)
    (ires : IssueFields → IssueRes) (es ss : List JVal)
    (hconf : env.openaiConfigured = true) (hpub : req.publish = true)
    (hjk : req.jiraProjectKey ≠ "") (hck : req.confluenceSpaceKey ≠ "")
    (hllm : env.llm (promptFor (reqExtracted req)) = .ok content)
    (hnorm : normalizeParsed (parseOutcome env.parseJson content) req.projectName
        req.jiraProjectKey req.confluenceSpaceKey (reqExtracted req) = .ok parsed)
    (hspace : truthy (env.getSpace req.confluenceSpaceKey) = true)
    (hpage : env.createPage = fun sk t h pid => .ok (pres sk t h pid))
    (hissue : env.createIssue = fun f => .ok (ires f))
    (hepics : getProp (getProp parsed "backlog") "epics" = .arr es [])
    (hstories : getProp (getProp parsed "backlog") "stories" = .arr ss [])
    (hes : ∀ e ∈ es, e ≠ .null ∧ e ≠ .undefined)
    (hss : ∀ s ∈ ss, (s ≠ .null ∧ s ≠ .undefined)
        ∧ isArray (jsOr (getProp s "acceptanceCriteria") (.arr [] [])) = true) :
    fullyAutomate env req
      = (.ok (expectedPublishBody env req parsed pres ires es ss),
         .llm (promptFor (reqExtracted req)) :: .spaceLookup req.confluenceSpaceKey ::
           (pagesTrace env.uniq pres req.confluenceSpaceKey parsed
             ++ (es.map fun e => .issueCreate (epicFields req.jiraProjectKey
                   (labelArrOf req.labels) e))
             ++ (ss.map fun s => .issueCreate (expectedStoryFields req.jiraProjectKey
                   (labelArrOf req.labels)
                   (pageUrlOf env.site (pres req.confluenceSpaceKey
                     (env.uniq ("PM Doc Pack – " ++ docPackBaseName parsed))
                     parentPageHtml none))
                   (buildEpicMap ires req.jiraProjectKey (labelArrOf req.labels) es []) s)))) ∧
    (pagesTrace env.uniq pres req.confluenceSpaceKey parsed).length = 5 := by
  have h1 : (req.jiraProjectKey == "") = false := by simp [hjk]
  have h2 : (req.confluenceSpaceKey == "") = false := by simp [hck]
  refine ⟨?_, rfl⟩
  simp only [fullyAutomate, hconf, Bool.not_true, Bool.false_eq_true, if_false, hpub, h1, h2,
    Bool.true_and]
  rw [hllm]
  simp only [hnorm]
  simp only [publishFlow, hspace, Bool.not_true, Bool.false_eq_true, if_false, hpage]
  simp only [hepics]
  have hjsOrE : jsOr (JVal.arr es []) (.arr [] []) = .arr es [] := by
    simp [jsOr, truthy]
  have hjsOrS : jsOr (JVal.arr ss []) (.arr [] []) = .arr ss [] := by
    simp [jsOr, truthy]
  rw [hjsOrE]
  simp only [jsIterate, hissue]
  rw [runEpics_success ires req.jiraProjectKey (labelArrOf req.labels) es hes]
  simp only [hstories]
  rw [hjsOrS]
  simp only []
  rw [runStories_success ires env.findEpicLink req.jiraProjectKey (labelArrOf req.labels)
    (pageUrlOf env.site (pres req.confluenceSpaceKey
      (env.uniq ("PM Doc Pack – " ++ docPackBaseName parsed)) parentPageHtml none))
    (buildEpicMap ires req.jiraProjectKey (labelArrOf req.labels) es []) ss hss]
  simp [pagesTrace, expectedPublishBody, List.append_assoc]

/-- Witness fixtures for C8: a model output with two epics and three stories,
a space lookup that succeeds, and total page/issue creators. -/
def c8epic (n : String) : JVal :=
  .obj [("name", .str n), ("description", .str ("about " ++ n))]

def c8story (e n : String) : JVal :=
  .obj [("epicName", .str e), ("summary", .str n), ("story", .str "as a user"),
        ("acceptanceCriteria", .arr [.str "works"] [])]

def c8raw : JVal :=
  .obj [("backlog", .obj [
    ("epics", .arr [c8epic "E1", c8epic "E2"] []),
    ("stories", .arr [c8story "E1" "S1", c8story "E1" "S2", c8story "E2" "S3"] [])])]

def c8pres : String → String → String → Option String → PageRes :=
  fun _ t _ _ => { id := "10", webui := "/pages/" ++ t }

def c8ires : IssueFields → IssueRes :=
  fun f => { id := "1", key := f.issuetype ++ "-" ++ jsToString f.summary }

def c8env : Env :=
  { openaiConfigured := true, llm := fun _ => .ok "x",
    parseJson := fun _ => some c8raw, site := "https://x.atlassian.net",
    getSpace := fun _ => .obj [("key", .str "TEST")],
    createPage := fun sk t h pid => .ok (c8pres sk t h pid),
    createIssue := fun f => .ok (c8ires f), findEpicLink := .ok none,
    uniq := fun b => b ++ "!", runId := "9" }

def c8req : Req :=
  { publish := true, requirementsText := "Build a login page", projectName := "P",
    jiraProjectKey := "PM", confluenceSpaceKey := "TEST", labels := "auto,pm",
    fileContent := none }

def c8parsed : JVal :=
  match normalizeParsed (parseOutcome c8env.parseJson "x") c8req.projectName
      c8req.jiraProjectKey c8req.confluenceSpaceKey (reqExtracted c8req) with
  | .ok p => p
  | .error _ => .null

/-- Witness for C8: two epics and three stories — 5 page creations then 2+3
issue creations, in order. -/
theorem claim8_publish_order_witness :
    fullyAutomate c8env c8req
      = (.ok (expectedPublishBody c8env c8req c8parsed c8pres c8ires
              [c8epic "E1", c8epic "E2"]
              [c8story "E1" "S1", c8story "E1" "S2", c8story "E2" "S3"]),
         .llm (promptFor (reqExtracted c8req)) :: .spaceLookup c8req.confluenceSpaceKey ::
           (pagesTrace c8env.uniq c8pres c8req.confluenceSpaceKey c8parsed
             ++ ([c8epic "E1", c8epic "E2"].map fun e =>
                   .issueCreate (epicFields c8req.jiraProjectKey
                     (labelArrOf c8req.labels) e))
             ++ ([c8story "E1" "S1", c8story "E1" "S2", c8story "E2" "S3"].map fun s =>
                   .issueCreate (expectedStoryFields c8req.jiraProjectKey
                     (labelArrOf c8req.labels)
                     (pageUrlOf c8env.site (c8pres c8req.confluenceSpaceKey
                       (c8env.uniq ("PM Doc Pack – " ++ docPackBaseName c8parsed))
                       parentPageHtml none))
                     (buildEpicMap c8ires c8req.jiraProjectKey
                       (labelArrOf c8req.labels) [c8epic "E1", c8epic "E2"] []) s)))) ∧
    (pagesTrace c8env.uniq c8pres c8req.confluenceSpaceKey c8parsed).length = 5 := by
  refine claim8_publish_order c8env c8req "x" c8parsed c8pres c8ires
    [c8epic "E1", c8epic "E2"]
    [c8story "E1" "S1", c8story "E1" "S2", c8story "E2" "S3"]
    rfl rfl (by decide) (by decide) rfl rfl rfl rfl rfl rfl rfl ?_ ?_
  · intro e he
    simp only [List.mem_cons, List.not_mem_nil, or_false] at he
    rcases he with h | h <;> subst h <;> exact ⟨by simp [c8epic], by simp [c8epic]⟩
  · intro s hs
    simp only [List.mem_cons, List.not_mem_nil, or_false] at hs
    rcases hs with h | h | h <;> subst h <;>
      exact ⟨⟨by simp [c8story], by simp [c8story]⟩, rfl⟩

/-- C6 counterexample: tier 1 fails and the `Epic Link` catalog lookup itself
throws. The claim requires tier 3 to run and only a tier-3 failure to be
surfaced; the code instead surfaces the lookup failure after a single
creation attempt — even though the unlinked tier-3 creation would have
succeeded (the same oracle returns `.ok` for the unlinked fields). -/
theorem claim6_cex :
    jiraCreateStoryWithEpic
        (fun f => if f.parentKey.isSome then .error "tier1 rejected"
                  else .ok ⟨"10001", "PM-2"⟩)
        (.error "Jira field list failed: 503") "PM" (some "PM-1") (.str "story") "text" []
      = (.error "Jira field list failed: 503",
         [{ storyFields "PM" (.str "story") "text" [] with parentKey := some "PM-1" }]) ∧
    (fun (f : IssueFields) => if f.parentKey.isSome then (.error "tier1 rejected" : Except String IssueRes)
                  else .ok ⟨"10001", "PM-2"⟩) (storyFields "PM" (.str "story") "text" [])
      = .ok ⟨"10001", "PM-2"⟩ := by
  exact ⟨rfl, rfl⟩

end PMDoc
